/-
  Verification of the evidence-engine review store and pipeline.

  Shallow embedding of the core of the repository:
    * `engine/core/database.py`   — the review store (papers, screening
      decisions, full-text assets, extractions, evidence spans);
    * `engine/core/review_spec.py` — review specification and protocol hashing;
    * `engine/search/dedup.py`    — citation deduplication;
    * `engine/agents/screener.py`, `engine/parsers/pdf_parser.py`,
      `engine/agents/extractor.py` — the stage runners.

  SQLite tables are modelled as Lean lists of rows; rowid allocation is
  modelled as `max existing id + 1` (starting at 1).  Raised Python
  exceptions are modelled with `Except`: an `.error` result corresponds to
  an exception leaving the store exactly as it was (the code performs all
  validation before any write).  Timestamps are opaque strings threaded as
  an explicit `now` argument.
-/
import Mathlib

namespace EvidenceEngine

/-! ## Store rows (schema of `database.py`) -/

/-- A row of the `papers` table.  The JSON-encoded `authors` TEXT column is
modelled by the decoded list of strings. -/
structure Paper where
  id : Nat
  pmid : Option String
  doi : Option String
  title : String
  abstract : Option String
  authors : List String
  journal : Option String
  year : Option Int
  source : String
  status : String
  created_at : String
  updated_at : String
deriving DecidableEq

/-- A row of the `screening_decisions` table. -/
structure ScreeningRow where
  id : Nat
  paper_id : Nat
  pass_number : Nat
  decision : String
  rationale : String
  model : String
  decided_at : String
deriving DecidableEq

/-- A row of the `full_text_assets` table. -/
structure AssetRow where
  id : Nat
  paper_id : Nat
  pdf_path : String
  pdf_hash : String
  parsed_text_path : String
  parsed_text_version : Nat
  parser_used : String
  parsed_at : String
deriving DecidableEq

/-- A row of the `extractions` table (`extracted_data` kept as its JSON text). -/
structure ExtractionRow where
  id : Nat
  paper_id : Nat
  extraction_schema_hash : String
  extracted_data : String
  reasoning_trace : String
  model : String
  extracted_at : String
deriving DecidableEq

/-- A row of the `evidence_spans` table (`confidence` as an exact rational). -/
structure SpanRow where
  id : Nat
  extraction_id : Nat
  field_name : String
  value : String
  source_snippet : String
  confidence : ℚ
  audit_status : String
  auditor_model : Option String
  audit_rationale : Option String
  audited_at : Option String
deriving DecidableEq

/-- The state of one review's SQLite database (`ReviewDatabase`). -/
structure ReviewDatabase where
  papers : List Paper
  screening_decisions : List ScreeningRow
  full_text_assets : List AssetRow
  extractions : List ExtractionRow
  evidence_spans : List SpanRow
deriving DecidableEq

/-! ## Paper lifecycle (`STATUSES`, `ALLOWED_TRANSITIONS`, `update_status`) -/

def STATUSES : List String :=
  ["INGESTED", "SCREENED_IN", "SCREENED_OUT", "SCREEN_FLAGGED",
   "PDF_ACQUIRED", "PARSED", "EXTRACTED", "AUDITED"]

/-- The `ALLOWED_TRANSITIONS` dict; `none` models a key that is absent. -/
def ALLOWED_TRANSITIONS : String → Option (List String)
  | "INGESTED" => some ["SCREENED_IN", "SCREENED_OUT", "SCREEN_FLAGGED"]
  | "SCREENED_IN" => some ["PDF_ACQUIRED"]
  | "SCREEN_FLAGGED" => some ["SCREENED_IN", "SCREENED_OUT"]
  | "PDF_ACQUIRED" => some ["PARSED"]
  | "PARSED" => some ["EXTRACTED"]
  | "EXTRACTED" => some ["AUDITED"]
  | "SCREENED_OUT" => some []
  | "AUDITED" => some []
  | _ => none

/-- `ALLOWED_TRANSITIONS.get(current, set())`. -/
def allowedFor (current : String) : List String :=
  (ALLOWED_TRANSITIONS current).getD []

/-- The distinct `ValueError` conditions raised by `update_status`. -/
inductive DbError where
  | unknownStatus (new_status : String)
  | notFound (paper_id : Nat)
  | invalidTransition (current new_status : String)
deriving DecidableEq

/-- `ReviewDatabase.update_status`: validate the status name, look the paper
up, validate the transition, then write exactly `status` and `updated_at`
of the selected row.  An `.error` models a raised `ValueError`, which in the
code happens before any write. -/
def update_status (db : ReviewDatabase) (paper_id : Nat) (new_status : String)
    (now : String) : Except DbError ReviewDatabase :=
  if new_status ∉ STATUSES then
    .error (.unknownStatus new_status)
  else
    match db.papers.find? (fun p => p.id == paper_id) with
    | none => .error (.notFound paper_id)
    | some row =>
      if new_status ∉ allowedFor row.status then
        .error (.invalidTransition row.status new_status)
      else
        .ok { db with
              papers := db.papers.map (fun p =>
                if p.id == paper_id then
                  { p with status := new_status, updated_at := now }
                else p) }

/-! ## Ingestion (`add_papers`) -/

/-- A `Citation` as produced by the search modules (`search/models.py`).
The `raw_data` dict is not read by any code under verification and is
omitted. -/
structure Citation where
  pmid : Option String
  doi : Option String
  title : String
  abstract : Option String
  authors : List String
  journal : Option String
  year : Option Int
  source : String
deriving DecidableEq

/-- `SELECT id FROM papers WHERE pmid = ?` finds a row. -/
def pmidExists (papers : List Paper) (pm : String) : Bool :=
  papers.any (fun p => p.pmid == some pm)

/-- Next `rowid` allocated by SQLite for an insert into `papers`. -/
def nextPaperId (papers : List Paper) : Nat :=
  (papers.foldl (fun m p => max m p.id) 0) + 1

/-- The row built by the `INSERT INTO papers ... VALUES (..., 'INGESTED', ...)`
statement of `add_papers`. -/
def citationToPaper (id : Nat) (now : String) (cit : Citation) : Paper :=
  { id := id, pmid := cit.pmid, doi := cit.doi, title := cit.title,
    abstract := cit.abstract, authors := cit.authors, journal := cit.journal,
    year := cit.year, source := cit.source, status := "INGESTED",
    created_at := now, updated_at := now }

/-- The `if cit.pmid:` duplicate pre-check of `add_papers` (Python
truthiness, so an empty-string PMID is not checked here). -/
def dupPrecheck (papers : List Paper) : Option String → Bool
  | some s => s ≠ "" && pmidExists papers s
  | none => false

/-- The condition under which the INSERT raises `sqlite3.IntegrityError`:
the UNIQUE constraint on the non-NULL `pmid` column. -/
def uniqueViolation (papers : List Paper) : Option String → Bool
  | some s => pmidExists papers s
  | none => false

/-- One iteration of the `add_papers` loop: the duplicate pre-check, then
the INSERT, whose `IntegrityError` is caught and treated as a skip. -/
def add_paper_one (now : String) (st : ReviewDatabase × Nat) (cit : Citation) :
    ReviewDatabase × Nat :=
  if dupPrecheck st.1.papers cit.pmid then st
  else if uniqueViolation st.1.papers cit.pmid then st
  else
    ({ st.1 with
       papers := st.1.papers ++ [citationToPaper (nextPaperId st.1.papers) now cit] },
     st.2 + 1)

/-- `ReviewDatabase.add_papers`: bulk insert, skipping PMID duplicates;
returns the new store and the count actually added. -/
def add_papers (db : ReviewDatabase) (citations : List Citation) (now : String) :
    ReviewDatabase × Nat :=
  citations.foldl (add_paper_one now) (db, 0)

/-! ## Review specification and protocol hashing (`review_spec.py`) -/

/-- JSON values as produced by pydantic's `model_dump` on the spec models. -/
inductive Json where
  | str (s : String)
  | num (n : Int)
  | arr (xs : List Json)
  | obj (kvs : List (String × Json))
  | null

/-- String escaping as in `json.dumps` (backslash and double quote; other
characters of the inputs at hand are emitted verbatim). -/
def jsonEscape (s : String) : String :=
  s.data.foldl (fun acc c =>
    if c = '\\' then acc ++ "\\\\"
    else if c = '"' then acc ++ "\\\""
    else acc.push c) ""

/-- Insertion of one key/value pair into a key-sorted association list. -/
def insertKv (kv : String × Json) : List (String × Json) → List (String × Json)
  | [] => [kv]
  | x :: xs => if kv.1 ≤ x.1 then kv :: x :: xs else x :: insertKv kv xs

/-- Sorting of object keys, as `json.dumps(..., sort_keys=True)` does. -/
def sortKvs : List (String × Json) → List (String × Json)
  | [] => []
  | x :: xs => insertKv x (sortKvs xs)

/-- `json.dumps(data, sort_keys=True)` with the default `", "`/`": "`
separators, structured over a fuel argument for termination; the top-level
wrapper supplies fuel at least the nesting depth, so the `0` case is never
reached. -/
def jsonDumpsF : Nat → Json → String
  | 0, _ => ""
  | fuel + 1, j =>
    match j with
    | .str s => "\"" ++ jsonEscape s ++ "\""
    | .num n => toString n
    | .null => "null"
    | .arr xs => "[" ++ String.intercalate ", " (xs.map (jsonDumpsF fuel)) ++ "]"
    | .obj kvs =>
      "\x7b" ++
        String.intercalate ", "
          ((sortKvs kvs).map (fun kv =>
            "\"" ++ jsonEscape kv.1 ++ "\": " ++ jsonDumpsF fuel kv.2)) ++
      "\x7d"

mutual

/-- A fuel bound that dominates the nesting depth of a JSON value. -/
def jsonFuel : Json → Nat
  | .str _ => 1
  | .num _ => 1
  | .null => 1
  | .arr xs => 1 + jsonFuelArr xs
  | .obj kvs => 1 + jsonFuelObj kvs

def jsonFuelArr : List Json → Nat
  | [] => 0
  | x :: xs => jsonFuel x + jsonFuelArr xs

def jsonFuelObj : List (String × Json) → Nat
  | [] => 0
  | kv :: kvs => jsonFuel kv.2 + jsonFuelObj kvs

end

def jsonDumps (j : Json) : String := jsonDumpsF (jsonFuel j) j

/-- `ScreeningCriteria` (`inclusion`/`exclusion` string lists). -/
structure ScreeningCriteria where
  inclusion : List String
  exclusion : List String
deriving DecidableEq

/-- One extraction field (`name`, `description`, `type`, `tier`,
`enum_values`). -/
structure ExtractionField where
  name : String
  description : String
  type : String
  tier : Nat
  enum_values : Option (List String)
deriving DecidableEq

structure ExtractionSchema where
  fields : List ExtractionField
deriving DecidableEq

structure PICO where
  population : String
  intervention : String
  comparator : String
  outcomes : List String
deriving DecidableEq

structure SearchStrategy where
  databases : List String
  query_terms : List String
  date_range : List Int
deriving DecidableEq

/-- The top-level `ReviewSpec` model (`date` kept as its ISO string). -/
structure ReviewSpec where
  title : String
  version : String
  authors : List String
  date : String
  prospero_id : Option String
  pico : PICO
  search_strategy : SearchStrategy
  screening_criteria : ScreeningCriteria
  extraction_schema : ExtractionSchema
deriving DecidableEq

def strArr (xs : List String) : Json := .arr (xs.map .str)

/-- `self.screening_criteria.model_dump()`. -/
def ScreeningCriteria.model_dump (c : ScreeningCriteria) : Json :=
  .obj [("inclusion", strArr c.inclusion), ("exclusion", strArr c.exclusion)]

/-- `model_dump()` of one `ExtractionField`. -/
def ExtractionField.model_dump (f : ExtractionField) : Json :=
  .obj [("name", .str f.name), ("description", .str f.description),
        ("type", .str f.type), ("tier", .num (Int.ofNat f.tier)),
        ("enum_values",
          match f.enum_values with
          | some vs => strArr vs
          | none => .null)]

/-- `self.extraction_schema.model_dump()`. -/
def ExtractionSchema.model_dump (s : ExtractionSchema) : Json :=
  .obj [("fields", .arr (s.fields.map ExtractionField.model_dump))]

/-- `_canonical_hash`: `sha256(json.dumps(data, sort_keys=True,
default=str).encode()).hexdigest()`, with the SHA-256 digest abstracted as
a function parameter (the theorems hold for every digest function). -/
def _canonical_hash (digest : String → String) (data : Json) : String :=
  digest (jsonDumps data)

/-- `ReviewSpec.screening_hash`. -/
def ReviewSpec.screening_hash (digest : String → String) (spec : ReviewSpec) :
    String :=
  _canonical_hash digest spec.screening_criteria.model_dump

/-- `ReviewSpec.extraction_hash`. -/
def ReviewSpec.extraction_hash (digest : String → String) (spec : ReviewSpec) :
    String :=
  _canonical_hash digest spec.extraction_schema.model_dump

/-! ## Extractions and staleness (`add_extraction`, `get_stale_extractions`) -/

/-- Next `rowid` allocated for an insert into `extractions`. -/
def nextExtractionId (rows : List ExtractionRow) : Nat :=
  (rows.foldl (fun m e => max m e.id) 0) + 1

/-- `ReviewDatabase.add_extraction`: insert one extraction row and return
its id (`extracted_data` threaded as its serialized JSON text). -/
def add_extraction (db : ReviewDatabase) (paper_id : Nat) (schema_hash : String)
    (extracted_data reasoning_trace model now : String) :
    ReviewDatabase × Nat :=
  let eid := nextExtractionId db.extractions
  ({ db with
     extractions := db.extractions ++
       [{ id := eid, paper_id := paper_id,
          extraction_schema_hash := schema_hash,
          extracted_data := extracted_data,
          reasoning_trace := reasoning_trace, model := model,
          extracted_at := now }] },
   eid)

/-- `SELECT MAX(e2.id) FROM extractions e2 WHERE e2.paper_id = p.id`
(`none` models SQL NULL on an empty group). -/
def maxExtractionId (rows : List ExtractionRow) (pid : Nat) : Option Nat :=
  let ids := (rows.filter (fun e => e.paper_id == pid)).map (fun e => e.id)
  if ids.isEmpty then none else some (ids.foldl max 0)

/-- `ReviewDatabase.get_stale_extractions`: the join of each paper with an
extraction of that paper whose id is the per-paper maximum and whose schema
hash differs from `current_hash`. -/
def get_stale_extractions (db : ReviewDatabase) (current_hash : String) :
    List (Paper × String) :=
  db.papers.flatMap (fun p =>
    (db.extractions.filter (fun e =>
        e.paper_id == p.id &&
        e.extraction_schema_hash != current_hash &&
        maxExtractionId db.extractions p.id == some e.id)).map
      (fun e => (p, e.extraction_schema_hash)))

/-- The staleness guard of `run_extraction` (`extractor.py`): a paper is
skipped when some extraction under the current schema hash already exists. -/
def extraction_skip_check (db : ReviewDatabase) (pid : Nat)
    (schema_hash : String) : Bool :=
  db.extractions.any (fun e =>
    e.paper_id == pid && e.extraction_schema_hash == schema_hash)

/-! ## Parsed-text versioning (`parse_pdf` in `pdf_parser.py`) -/

/-- Next `rowid` allocated for an insert into `full_text_assets`. -/
def nextAssetId (rows : List AssetRow) : Nat :=
  (rows.foldl (fun m a => max m a.id) 0) + 1

/-- `SELECT parsed_text_version FROM full_text_assets WHERE paper_id = ?
AND pdf_hash = ? ORDER BY parsed_text_version DESC LIMIT 1`. -/
def existingVersion (rows : List AssetRow) (pid : Nat) (h : String) :
    Option Nat :=
  let vs := (rows.filter (fun a => a.paper_id == pid && a.pdf_hash == h)).map
    (fun a => a.parsed_text_version)
  if vs.isEmpty then none else some (vs.foldl max 0)

/-- `SELECT MAX(parsed_text_version) FROM full_text_assets WHERE
paper_id = ?` followed by `(last_version or 0)`. -/
def lastVersion (rows : List AssetRow) (pid : Nat) : Nat :=
  ((rows.filter (fun a => a.paper_id == pid)).map
    (fun a => a.parsed_text_version)).foldl max 0

/-- The store effect of `parse_pdf` for one paper id and PDF content hash:
if an asset with the same hash exists, return its version and insert
nothing; otherwise allocate `(last_version or 0) + 1` and insert exactly
one asset row.  The parse backends only produce the Markdown text and the
`parser_used` tag, both threaded as arguments.  Returns the new store, the
version, and whether a row was inserted. -/
def parse_pdf (db : ReviewDatabase) (paper_id : Nat) (pdf_hash : String)
    (pdf_path parsed_text_path parser_used now : String) :
    ReviewDatabase × Nat × Bool :=
  match existingVersion db.full_text_assets paper_id pdf_hash with
  | some v => (db, v, false)
  | none =>
    let version := lastVersion db.full_text_assets paper_id + 1
    ({ db with
       full_text_assets := db.full_text_assets ++
         [{ id := nextAssetId db.full_text_assets, paper_id := paper_id,
            pdf_path := pdf_path, pdf_hash := pdf_hash,
            parsed_text_path := parsed_text_path,
            parsed_text_version := version, parser_used := parser_used,
            parsed_at := now }] },
     version, true)

/-! ## Citation deduplication (`search/dedup.py`)

`title_similarity` calls `difflib.SequenceMatcher(None, t1, t2).ratio()`.
The matcher is embedded below following CPython's `difflib`: the `b2j`
index with the autojunk rule (elements of a `b` of length ≥ 200 occurring
in more than `len(b)//100 + 1` positions are dropped from the index), the
per-row dynamic programming of `find_longest_match`, and the two non-junk
extension loops.  With `isjunk=None` the `bjunk` set is empty, so the two
junk-extension loops of `find_longest_match` never fire and are omitted.
The float comparison `ratio > 0.9` is modelled over exact rationals. -/

/-- Python `\w` (word character) on the character sets at hand. -/
def isWordChar (c : Char) : Bool := c.isAlphanum || c == '_'

def isSpaceChar (c : Char) : Bool := c.isWhitespace

/-- Python `str.strip()` (whitespace at both ends removed). -/
def pyStrip (s : String) : String :=
  String.mk (((s.data.dropWhile isSpaceChar).reverse.dropWhile
    isSpaceChar).reverse)

/-- Python `str.lower()`. -/
def pyLower (s : String) : String := String.mk (s.data.map Char.toLower)

/-- Replace each whitespace run by one space (`_SPACE_RE.sub(" ", t)`);
the flag records whether the previous character was inside a run. -/
def collapseSpacesAux : Bool → List Char → List Char
  | _, [] => []
  | prevSpace, c :: cs =>
    if isSpaceChar c then
      if prevSpace then collapseSpacesAux true cs
      else ' ' :: collapseSpacesAux true cs
    else c :: collapseSpacesAux false cs

def collapseSpaces (l : List Char) : List Char := collapseSpacesAux false l

/-- `normalize_title`: lowercase, strip punctuation (`[^\w\s]` deleted),
collapse whitespace, strip. -/
def normalize_title (title : String) : String :=
  let t := (title.data.map Char.toLower).filter
    (fun c => isWordChar c || isSpaceChar c)
  let t := collapseSpaces t
  String.mk (((t.dropWhile (fun c => c == ' ')).reverse.dropWhile
    (fun c => c == ' ')).reverse)

/-- difflib autojunk: in a `b` of length ≥ 200, characters occurring in
more than `len(b) // 100 + 1` positions are "popular" and dropped from
`b2j`. -/
def popularChar (b : List Char) (c : Char) : Bool :=
  b.length ≥ 200 && b.count c > b.length / 100 + 1

/-- `b2j[c]`: ascending positions of `c` in `b`, autojunk applied. -/
def b2j (b : List Char) (c : Char) : List Nat :=
  if popularChar b c then []
  else (List.range b.length).filter (fun j => b.get? j == some c)

/-- The running best block `(besti, bestj, bestsize)`. -/
structure BestBlock where
  besti : Nat
  bestj : Nat
  bestsize : Nat
deriving DecidableEq

/-- `j2len.get(j-1, 0)` over the previous row's association list. -/
def alistGet (l : List (Nat × Nat)) (k : Nat) : Nat :=
  match l.find? (fun kv => kv.1 == k) with
  | some kv => kv.2
  | none => 0

/-- The inner loop of `find_longest_match` for row `i`: fold over the
in-range positions `j` of `a[i]` in `b`, building the new `j2len` row and
updating the best block (`j2len.get(-1, 0)` is 0, hence the `j = 0` case). -/
def flmRow (j2len : List (Nat × Nat)) (js : List Nat) (i : Nat)
    (best : BestBlock) : List (Nat × Nat) × BestBlock :=
  js.foldl
    (fun (acc : List (Nat × Nat) × BestBlock) j =>
      let k := (if j = 0 then 0 else alistGet j2len (j - 1)) + 1
      let best' := if k > acc.2.bestsize then
          BestBlock.mk (i + 1 - k) (j + 1 - k) k
        else acc.2
      ((j, k) :: acc.1, best'))
    ([], best)

/-- The first (non-junk) left extension loop of `find_longest_match`. -/
def extendLeft (a b : List Char) (alo blo : Nat) :
    Nat → BestBlock → BestBlock
  | 0, best => best
  | fuel + 1, best =>
    if best.besti > alo && best.bestj > blo &&
        (a.get? (best.besti - 1) == b.get? (best.bestj - 1)) then
      extendLeft a b alo blo fuel
        (BestBlock.mk (best.besti - 1) (best.bestj - 1) (best.bestsize + 1))
    else best

/-- The first (non-junk) right extension loop of `find_longest_match`. -/
def extendRight (a b : List Char) (ahi bhi : Nat) :
    Nat → BestBlock → BestBlock
  | 0, best => best
  | fuel + 1, best =>
    if best.besti + best.bestsize < ahi && best.bestj + best.bestsize < bhi &&
        (a.get? (best.besti + best.bestsize)
          == b.get? (best.bestj + best.bestsize)) then
      extendRight a b ahi bhi fuel
        (BestBlock.mk best.besti best.bestj (best.bestsize + 1))
    else best

/-- `SequenceMatcher.find_longest_match(alo, ahi, blo, bhi)`. -/
def findLongestMatch (a b : List Char) (alo ahi blo bhi : Nat) : BestBlock :=
  let dpBest := ((List.range' alo (ahi - alo)).foldl
    (fun (acc : List (Nat × Nat) × BestBlock) i =>
      let js := (b2j b (a.getD i (Char.ofNat 0))).filter
        (fun j => blo ≤ j && j < bhi)
      flmRow acc.1 js i acc.2)
    ([], BestBlock.mk alo blo 0)).2
  let s1 := extendLeft a b alo blo (dpBest.besti + 1) dpBest
  extendRight a b ahi bhi (ahi + 1) s1

/-- Total size of all matching blocks
(`sum(triple[-1] for triple in get_matching_blocks())`), by the recursive
divide at the longest match; the fuel dominates the recursion depth. -/
def matchTotalF (a b : List Char) : Nat → Nat → Nat → Nat → Nat → Nat
  | 0, _, _, _, _ => 0
  | fuel + 1, alo, ahi, blo, bhi =>
    let blk := findLongestMatch a b alo ahi blo bhi
    if blk.bestsize = 0 then 0
    else
      matchTotalF a b fuel alo blk.besti blo blk.bestj + blk.bestsize +
        matchTotalF a b fuel (blk.besti + blk.bestsize) ahi
          (blk.bestj + blk.bestsize) bhi

def matchTotal (a b : List Char) : Nat :=
  matchTotalF a b (a.length + b.length + 1) 0 a.length 0 b.length

/-- `title_similarity`: `SequenceMatcher(None, t1, t2).ratio()` as an exact
rational; `_calculate_ratio` returns 1.0 when both strings are empty. -/
def title_similarity (t1 t2 : String) : ℚ :=
  let la := t1.data.length
  let lb := t2.data.length
  if la + lb = 0 then 1
  else (2 * (matchTotal t1.data t2.data) : ℚ) / (la + lb : ℚ)

/-- The fuzzy-title test of `_find_match`: `title_similarity(...) > 0.9`,
written over naturals by cross-multiplying (`titleMatches_iff_ratio` below
proves it equivalent to the rational comparison; two empty strings have
ratio 1.0 > 0.9). -/
def titleMatches (t1 t2 : String) : Bool :=
  let la := t1.data.length
  let lb := t2.data.length
  if la + lb = 0 then true
  else 9 * (la + lb) < 20 * matchTotal t1.data t2.data

/-- Python truthiness of an optional string. -/
def strTruthy : Option String → Bool
  | some s => s ≠ ""
  | none => false

/-- Dict lookup; insertions prepend, so `find?` sees the latest binding,
matching Python's last-write-wins dict update. -/
def dictGet (d : List (String × Nat)) (k : String) : Option Nat :=
  (d.find? (fun kv => kv.1 == k)).map (fun kv => kv.2)

/-- `_find_match`: DOI exact match first, then PMID exact match, then the
first fuzzy title match above the 0.9 threshold. -/
def _find_match (cit : Citation) (doi_index pmid_index : List (String × Nat))
    (title_index : List (String × Nat)) : Option Nat :=
  match (if strTruthy cit.doi then
      dictGet doi_index (pyLower (pyStrip (cit.doi.getD ""))) else none) with
  | some idx => some idx
  | none =>
    match (if strTruthy cit.pmid then
        dictGet pmid_index (pyStrip (cit.pmid.getD "")) else none) with
    | some idx => some idx
    | none =>
      (title_index.find? (fun kv =>
        titleMatches (normalize_title cit.title) kv.1)).map (fun kv => kv.2)

/-- `_merge` back-fill of one optional field: fill only when the primary's
value is `None` and the secondary's is not. -/
def fillField {α : Type} : Option α → Option α → Option α
  | some v, _ => some v
  | none, s => s

/-- `_merge(primary, secondary)`. -/
def _merge (primary secondary : Citation) : Citation :=
  { primary with
    doi := fillField primary.doi secondary.doi,
    pmid := fillField primary.pmid secondary.pmid,
    abstract := fillField primary.abstract secondary.abstract,
    journal := fillField primary.journal secondary.journal,
    year := fillField primary.year secondary.year,
    authors := if primary.authors.isEmpty && !secondary.authors.isEmpty then
        secondary.authors
      else primary.authors }

/-- The cumulative dedup state: three indexes, the unique list, and the
duplicate-pairs log. -/
structure DedupState where
  doi_index : List (String × Nat)
  pmid_index : List (String × Nat)
  title_index : List (String × Nat)
  unique : List Citation
  duplicate_pairs : List (String × String)
deriving DecidableEq

def dummyCitation : Citation :=
  { pmid := none, doi := none, title := "", abstract := none, authors := [],
    journal := none, year := none, source := "pubmed" }

/-- Index a citation stored at position `idx`. -/
def indexCitation (st : DedupState) (cit : Citation) (idx : Nat) : DedupState :=
  { st with
    doi_index := if strTruthy cit.doi then
        (pyLower (pyStrip (cit.doi.getD "")), idx) :: st.doi_index
      else st.doi_index,
    pmid_index := if strTruthy cit.pmid then
        (pyStrip (cit.pmid.getD ""), idx) :: st.pmid_index
      else st.pmid_index,
    title_index := st.title_index ++ [(normalize_title cit.title, idx)] }

/-- Phase 1 of `deduplicate`: append one primary (PubMed) citation and
index it. -/
def addPrimary (st : DedupState) (cit : Citation) : DedupState :=
  let idx := st.unique.length
  indexCitation { st with unique := st.unique ++ [cit] } cit idx

/-- Phase 2 of `deduplicate` for one secondary (OpenAlex) citation: merge
into the matched entry and log the pair, or append and index it as new. -/
def dedupStep (st : DedupState) (oa : Citation) : DedupState :=
  match _find_match oa st.doi_index st.pmid_index st.title_index with
  | some idx =>
    let merged := _merge (st.unique.getD idx dummyCitation) oa
    { st with
      unique := st.unique.set idx merged,
      duplicate_pairs := st.duplicate_pairs ++ [(merged.title, oa.title)] }
  | none =>
    let idx := st.unique.length
    indexCitation { st with unique := st.unique ++ [oa] } oa idx

/-- `DedupResult` (its `stats` dict flattened into fields). -/
structure DedupResult where
  unique_citations : List Citation
  duplicate_pairs : List (String × String)
  pubmed_total : Nat
  openalex_total : Nat
  duplicates_found : Nat
  unique_total : Nat
deriving DecidableEq

/-- `deduplicate(pubmed_citations, openalex_citations)`. -/
def deduplicate (pubmed_citations openalex_citations : List Citation) :
    DedupResult :=
  let st1 := pubmed_citations.foldl addPrimary (DedupState.mk [] [] [] [] [])
  let st2 := openalex_citations.foldl dedupStep st1
  { unique_citations := st2.unique,
    duplicate_pairs := st2.duplicate_pairs,
    pubmed_total := pubmed_citations.length,
    openalex_total := openalex_citations.length,
    duplicates_found := st2.duplicate_pairs.length,
    unique_total := st2.unique.length }

/-! ## Stage runners (`screener.py`, `pdf_parser.py`, `extractor.py`)

The external collaborators (Ollama model calls, the Docling/MiniCPM parse
backends, the filesystem) are abstracted as function parameters returning
`Except`, an `.error` modelling a raised exception.  `run_screening` has no
`try/except` around its per-paper body, so an oracle `.error` aborts the
loop (carrying the store as committed so far); `parse_all_pdfs` and
`run_extraction` wrap their per-paper body in `try/except Exception`, so an
`.error` is tallied as a failure and the loop continues. -/

/-- `get_papers_by_status`. -/
def get_papers_by_status (db : ReviewDatabase) (status : String) : List Paper :=
  db.papers.filter (fun p => p.status == status)

/-- Next `rowid` for `screening_decisions`. -/
def nextDecisionId (rows : List ScreeningRow) : Nat :=
  (rows.foldl (fun m r => max m r.id) 0) + 1

/-- `ReviewDatabase.add_screening_decision`: append-only insert. -/
def add_screening_decision (db : ReviewDatabase) (paper_id pass_number : Nat)
    (decision rationale model now : String) : ReviewDatabase :=
  { db with
    screening_decisions := db.screening_decisions ++
      [{ id := nextDecisionId db.screening_decisions, paper_id := paper_id,
         pass_number := pass_number, decision := decision,
         rationale := rationale, model := model, decided_at := now }] }

/-- The screener's `MODEL` constant. -/
def MODEL : String := "qwen3:8b"

/-- Structured output of one `screen_paper` call (its `decision` field is
the literal string `"include"` or `"exclude"`). -/
structure ScreeningDecisionOut where
  decision : String
  rationale : String
deriving DecidableEq

/-- The status chosen by `run_screening`'s agreement `if/elif/else`. -/
def agreementStatus (d1 d2 : ScreeningDecisionOut) : String :=
  if d1.decision == "include" && d2.decision == "include" then "SCREENED_IN"
  else if d1.decision == "exclude" && d2.decision == "exclude" then
    "SCREENED_OUT"
  else "SCREEN_FLAGGED"

structure ScreenStats where
  screened_in : Nat
  screened_out : Nat
  flagged : Nat
  total : Nat
deriving DecidableEq

/-- The tally bump paired with each agreement branch. -/
def bumpStats (stats : ScreenStats) (st : String) : ScreenStats :=
  if st == "SCREENED_IN" then
    { stats with screened_in := stats.screened_in + 1 }
  else if st == "SCREENED_OUT" then
    { stats with screened_out := stats.screened_out + 1 }
  else { stats with flagged := stats.flagged + 1 }

/-- How a screening run aborts: an uncaught model-call exception or an
uncaught store `ValueError`. -/
inductive ScreenAbort where
  | modelError (e : String)
  | dbError (e : DbError)
deriving DecidableEq

/-- The `run_screening` loop body over the snapshot of `INGESTED` papers.
There is no `try/except`: an oracle `.error` (a raised exception in
`screen_paper`) propagates immediately, as does a store error. -/
def run_screening_loop
    (oracle : Paper → Nat → Except String ScreeningDecisionOut) (now : String) :
    List Paper → ReviewDatabase → ScreenStats →
      Except (ScreenAbort × ReviewDatabase) (ReviewDatabase × ScreenStats)
  | [], db, stats => .ok (db, stats)
  | paper :: rest, db, stats =>
    match oracle paper 1 with
    | .error e => .error (.modelError e, db)
    | .ok d1 =>
      let db1 := add_screening_decision db paper.id 1 d1.decision d1.rationale
        MODEL now
      match oracle paper 2 with
      | .error e => .error (.modelError e, db1)
      | .ok d2 =>
        let db2 := add_screening_decision db1 paper.id 2 d2.decision
          d2.rationale MODEL now
        match update_status db2 paper.id (agreementStatus d1 d2) now with
        | .error e => .error (.dbError e, db2)
        | .ok db3 =>
          run_screening_loop oracle now rest db3
            (bumpStats stats (agreementStatus d1 d2))

/-- `run_screening(db, spec)` with the model call abstracted as `oracle`. -/
def run_screening (oracle : Paper → Nat → Except String ScreeningDecisionOut)
    (db : ReviewDatabase) (now : String) :
    Except (ScreenAbort × ReviewDatabase) (ReviewDatabase × ScreenStats) :=
  let papers := get_papers_by_status db "INGESTED"
  run_screening_loop oracle now papers db (ScreenStats.mk 0 0 0 papers.length)

structure ParseStats where
  parsed : Nat
  skipped_existing : Nat
  failed : Nat
  docling : Nat
  minicpm : Nat
deriving DecidableEq

/-- The `parse_all_pdfs` loop over the snapshot of `PDF_ACQUIRED` papers.
`find_pdf` models the glob for the paper's PDF (no candidate counts as a
failure before the `try`); `attempt` models `parse_pdf` — parse backends
included — returning the updated store and `parser_used`, or a raised
exception.  The `try` block spans `parse_pdf` and the status update, so an
error in either is caught, tallied, and the loop continues. -/
def parse_all_pdfs_loop (find_pdf : Nat → Option String)
    (attempt : ReviewDatabase → String → Nat → Except String (ReviewDatabase × String))
    (now : String) :
    List Paper → ReviewDatabase → ParseStats → ReviewDatabase × ParseStats
  | [], db, stats => (db, stats)
  | paper :: rest, db, stats =>
    match find_pdf paper.id with
    | none =>
      parse_all_pdfs_loop find_pdf attempt now rest db
        { stats with failed := stats.failed + 1 }
    | some path =>
      match attempt db path paper.id with
      | .error _ =>
        parse_all_pdfs_loop find_pdf attempt now rest db
          { stats with failed := stats.failed + 1 }
      | .ok (db1, parser_used) =>
        let stats1 := if parser_used == "docling" then
            { stats with docling := stats.docling + 1 }
          else { stats with minicpm := stats.minicpm + 1 }
        match update_status db1 paper.id "PARSED" now with
        | .error _ =>
          parse_all_pdfs_loop find_pdf attempt now rest db1
            { stats1 with failed := stats1.failed + 1 }
        | .ok db2 =>
          parse_all_pdfs_loop find_pdf attempt now rest db2
            { stats1 with parsed := stats1.parsed + 1 }

def parse_all_pdfs (find_pdf : Nat → Option String)
    (attempt : ReviewDatabase → String → Nat → Except String (ReviewDatabase × String))
    (db : ReviewDatabase) (now : String) : ReviewDatabase × ParseStats :=
  parse_all_pdfs_loop find_pdf attempt now
    (get_papers_by_status db "PDF_ACQUIRED") db (ParseStats.mk 0 0 0 0 0)

structure ExtractStats where
  extracted : Nat
  skipped : Nat
  failed : Nat
  total_spans : Nat
deriving DecidableEq

/-- The `run_extraction` loop over the snapshot of `PARSED` papers: the
staleness guard first, then the parsed-text lookup (no file counts as a
failure), then the `try` block — `extract_paper` (`extract1`, returning
the store with the extraction and spans committed plus the span count, or
a raised exception) and the status update; an error in the `try` block is
caught, tallied, and the loop continues. -/
def run_extraction_loop (load_text : Nat → Option String)
    (extract1 : ReviewDatabase → Paper → String → Except String (ReviewDatabase × Nat))
    (schema_hash now : String) :
    List Paper → ReviewDatabase → ExtractStats → ReviewDatabase × ExtractStats
  | [], db, stats => (db, stats)
  | paper :: rest, db, stats =>
    if extraction_skip_check db paper.id schema_hash then
      run_extraction_loop load_text extract1 schema_hash now rest db
        { stats with skipped := stats.skipped + 1 }
    else
      match load_text paper.id with
      | none =>
        run_extraction_loop load_text extract1 schema_hash now rest db
          { stats with failed := stats.failed + 1 }
      | some text =>
        match extract1 db paper text with
        | .error _ =>
          run_extraction_loop load_text extract1 schema_hash now rest db
            { stats with failed := stats.failed + 1 }
        | .ok (db1, nspans) =>
          match update_status db1 paper.id "EXTRACTED" now with
          | .error _ =>
            run_extraction_loop load_text extract1 schema_hash now rest db1
              { stats with failed := stats.failed + 1 }
          | .ok db2 =>
            run_extraction_loop load_text extract1 schema_hash now rest db2
              { stats with extracted := stats.extracted + 1,
                           total_spans := stats.total_spans + nspans }

def run_extraction (load_text : Nat → Option String)
    (extract1 : ReviewDatabase → Paper → String → Except String (ReviewDatabase × Nat))
    (schema_hash : String) (db : ReviewDatabase) (now : String) :
    ReviewDatabase × ExtractStats :=
  run_extraction_loop load_text extract1 schema_hash now
    (get_papers_by_status db "PARSED") db (ExtractStats.mk 0 0 0 0)

/-! ## Evidence-span audit (`update_audit`) -/

/-- `ReviewDatabase.update_audit`: a bare SQL UPDATE on `evidence_spans`
matched by span id — no existence check, no error path. -/
def update_audit (db : ReviewDatabase) (span_id : Nat)
    (status model rationale now : String) : ReviewDatabase :=
  { db with
    evidence_spans := db.evidence_spans.map (fun sp =>
      if sp.id == span_id then
        { sp with audit_status := status, auditor_model := some model,
                  audit_rationale := some rationale, audited_at := some now }
      else sp) }

/-! ## Sample data for concrete witnesses -/

def samplePaper : Paper :=
  { id := 1, pmid := some "101", doi := none, title := "Paper A", abstract := none,
    authors := [], journal := none, year := none, source := "pubmed",
    status := "INGESTED", created_at := "t0", updated_at := "t0" }

def sampleDb : ReviewDatabase :=
  { papers := [samplePaper], screening_decisions := [], full_text_assets := [],
    extractions := [], evidence_spans := [] }

def sampleDbOut : ReviewDatabase :=
  { sampleDb with papers := [{ samplePaper with status := "SCREENED_OUT" }] }

def sampleDbScreened : ReviewDatabase :=
  { sampleDb with
    papers := [{ samplePaper with status := "SCREENED_IN", updated_at := "t1" }] }

def sampleCitationDup : Citation :=
  { pmid := some "101", doi := some "10.1/x", title := "Paper A again",
    abstract := none, authors := [], journal := none, year := none,
    source := "openalex" }

def sampleCitationNoPmid : Citation :=
  { pmid := none, doi := none, title := "Untracked paper", abstract := none,
    authors := [], journal := none, year := none, source := "openalex" }

def sampleCriteria : ScreeningCriteria :=
  { inclusion := ["autonomous surgical robot"], exclusion := ["animal-only study"] }

def sampleCriteriaAlt : ScreeningCriteria :=
  { inclusion := ["teleoperated system"], exclusion := [] }

def sampleSchema : ExtractionSchema :=
  { fields := [{ name := "autonomy_level", description := "Level of autonomy",
                 type := "int", tier := 1, enum_values := none }] }

def sampleSchemaAlt : ExtractionSchema :=
  { fields := [{ name := "outcome", description := "Primary outcome",
                 type := "str", tier := 1, enum_values := none },
               { name := "sample_size", description := "Number of trials",
                 type := "int", tier := 2, enum_values := none }] }

def sampleSpecA : ReviewSpec :=
  { title := "Review A", version := "1.0", authors := ["Doe"], date := "2025-01-01",
    prospero_id := none,
    pico := { population := "adults", intervention := "robot", comparator := "human",
              outcomes := ["accuracy"] },
    search_strategy := { databases := ["pubmed"], query_terms := ["robot"],
                         date_range := [2000, 2025] },
    screening_criteria := sampleCriteria,
    extraction_schema := sampleSchema }

/-- Same screening criteria as `sampleSpecA`; every other section differs. -/
def sampleSpecB : ReviewSpec :=
  { title := "Review B", version := "2.0", authors := ["Roe", "Poe"],
    date := "2026-06-30", prospero_id := some "CRD42026",
    pico := { population := "patients", intervention := "surgical system",
              comparator := "standard care", outcomes := ["time", "errors"] },
    search_strategy := { databases := ["openalex"], query_terms := ["suturing"],
                         date_range := [2010, 2026] },
    screening_criteria := sampleCriteria,
    extraction_schema := sampleSchemaAlt }

/-- Same extraction schema as `sampleSpecA`; the screening criteria differ. -/
def sampleSpecC : ReviewSpec :=
  { sampleSpecB with screening_criteria := sampleCriteriaAlt,
                     extraction_schema := sampleSchema }

def sampleExtraction1 : ExtractionRow :=
  { id := 1, paper_id := 1, extraction_schema_hash := "h1", extracted_data := "[]",
    reasoning_trace := "", model := "m", extracted_at := "t1" }

def sampleExtraction2 : ExtractionRow :=
  { sampleExtraction1 with id := 2, extraction_schema_hash := "h2",
                           extracted_at := "t2" }

def sampleStaleDb : ReviewDatabase :=
  { sampleDb with extractions := [sampleExtraction1, sampleExtraction2] }

def sampleAsset : AssetRow :=
  { id := 1, paper_id := 1, pdf_path := "pdfs/1.pdf", pdf_hash := "hashA",
    parsed_text_path := "parsed_text/1_v1.md", parsed_text_version := 1,
    parser_used := "docling", parsed_at := "t1" }

def sampleAssetDb : ReviewDatabase :=
  { sampleDb with full_text_assets := [sampleAsset] }

def sampleOaCit : Citation :=
  { pmid := some "201", doi := some " 10.1/A", title := "Sample Title",
    abstract := none, authors := [], journal := none, year := none,
    source := "openalex" }

def samplePrimaryCit : Citation :=
  { pmid := some "1", doi := some "10.a", title := "Study A", abstract := none,
    authors := [], journal := none, year := some 2020, source := "pubmed" }

def sampleSecondaryCit : Citation :=
  { pmid := some "1", doi := some "10.b", title := "Study A (preprint)",
    abstract := some "An abstract.", authors := ["Doe"], journal := some "J",
    year := some 2021, source := "openalex" }

def sampleSt1 : DedupState :=
  addPrimary (DedupState.mk [] [] [] [] []) samplePrimaryCit

def sampleDisagreeOracle : Paper → Nat → Except String ScreeningDecisionOut :=
  fun _ n =>
    .ok (if n = 1 then ScreeningDecisionOut.mk "include" "r1"
         else ScreeningDecisionOut.mk "exclude" "r2")

def sampleSpan : SpanRow :=
  { id := 1, extraction_id := 1, field_name := "outcome", value := "positive",
    source_snippet := "the outcome was positive", confidence := 1,
    audit_status := "pending", auditor_model := none, audit_rationale := none,
    audited_at := none }

def sampleSpanDb : ReviewDatabase :=
  { sampleDb with evidence_spans := [sampleSpan] }

def samplePaper2 : Paper :=
  { samplePaper with id := 2, pmid := some "102", title := "Paper B" }

def sampleFailOracle : Paper → Nat → Except String ScreeningDecisionOut :=
  fun _ _ => .error "model call failed"

def sampleParseDb : ReviewDatabase :=
  { sampleDb with
    papers := [{ samplePaper with status := "PDF_ACQUIRED" },
               { samplePaper2 with status := "PDF_ACQUIRED" }] }

def sampleExtractDb : ReviewDatabase :=
  { sampleDb with
    papers := [{ samplePaper with status := "PARSED" },
               { samplePaper2 with status := "PARSED" }] }

def sampleFindPdf : Nat → Option String := fun _ => some "paper.pdf"

def sampleParseFails : Nat → Bool := fun pid => pid == 1

def sampleParseAttempt :
    ReviewDatabase → String → Nat → Except String (ReviewDatabase × String) :=
  fun st _ pid =>
    if pid == 1 then .error "parse failed" else .ok (st, "docling")

def sampleLoadText : Nat → Option String := fun _ => some "parsed text"

def sampleExtract1 :
    ReviewDatabase → Paper → String → Except String (ReviewDatabase × Nat) :=
  fun st p _ =>
    if p.id == 1 then .error "model call failed" else .ok (st, 3)

/-! ## Theorems -/

theorem isEmpty_false_of_mem {α : Type} {x : α} {l : List α} (h : x ∈ l) :
    l.isEmpty = false := by
  cases l with
  | nil => cases h
  | cons a as => rfl

theorem foldl_max_le_of_all (l : List Nat) :
    ∀ a b, a ≤ b → (∀ x ∈ l, x ≤ b) → l.foldl max a ≤ b := by
  induction l with
  | nil => intro a b ha _; simpa using ha
  | cons x xs ih =>
    intro a b ha hall
    simp only [List.foldl_cons]
    exact ih (max a x) b (max_le ha (hall x (by simp)))
      (fun y hy => hall y (by simp [hy]))

theorem le_foldl_max (l : List Nat) : ∀ a, a ≤ l.foldl max a := by
  induction l with
  | nil => intro a; simp
  | cons x xs ih =>
    intro a
    simp only [List.foldl_cons]
    exact le_trans (le_max_left a x) (ih (max a x))

theorem mem_le_foldl_max (l : List Nat) :
    ∀ a x, x ∈ l → x ≤ l.foldl max a := by
  induction l with
  | nil => intro a x hx; cases hx
  | cons y ys ih =>
    intro a x hx
    rcases List.mem_cons.mp hx with rfl | h
    · simp only [List.foldl_cons]
      exact le_trans (le_max_right a x) (le_foldl_max ys (max a x))
    · simp only [List.foldl_cons]
      exact ih (max a y) x h

theorem foldl_max_mem (l : List Nat) :
    ∀ a, l.foldl max a = a ∨ l.foldl max a ∈ l := by
  induction l with
  | nil => intro a; left; rfl
  | cons x xs ih =>
    intro a
    simp only [List.foldl_cons]
    rcases ih (max a x) with h | h
    · rcases max_choice a x with h' | h'
      · left; rw [h, h']
      · right; rw [h, h']; exact List.mem_cons_self x xs
    · right; exact List.mem_cons_of_mem x h

theorem maxExtractionId_le (rows : List ExtractionRow) (pid : Nat) (m : Nat)
    (h : maxExtractionId rows pid = some m) :
    ∀ e ∈ rows, e.paper_id = pid → e.id ≤ m := by
  intro e he hpe
  unfold maxExtractionId at h
  by_cases hne : ((rows.filter (fun x => x.paper_id == pid)).map
      (fun x => x.id)).isEmpty = true
  · simp only [hne, if_true] at h
    cases h
  · have hne' := eq_false_of_ne_true hne
    simp only [hne', Bool.false_eq_true, if_false, Option.some.injEq] at h
    subst h
    apply mem_le_foldl_max
    exact List.mem_map.mpr ⟨e, List.mem_filter.mpr ⟨he, by simp [hpe]⟩, rfl⟩

theorem maxExtractionId_eq_some (rows : List ExtractionRow) (pid : Nat)
    (e : ExtractionRow) (he : e ∈ rows) (hpe : e.paper_id = pid)
    (hbound : ∀ e' ∈ rows, e'.paper_id = pid → e'.id ≤ e.id) :
    maxExtractionId rows pid = some e.id := by
  unfold maxExtractionId
  have hmem : e.id ∈ (rows.filter (fun x => x.paper_id == pid)).map
      (fun x => x.id) :=
    List.mem_map.mpr ⟨e, List.mem_filter.mpr ⟨he, by simp [hpe]⟩, rfl⟩
  have hne := isEmpty_false_of_mem hmem
  simp only [hne, Bool.false_eq_true, if_false, Option.some.injEq]
  apply le_antisymm
  · apply foldl_max_le_of_all _ _ _ (Nat.zero_le _)
    intro x hx
    obtain ⟨e', he', rfl⟩ := List.mem_map.mp hx
    obtain ⟨he'r, hpred⟩ := List.mem_filter.mp he'
    exact hbound e' he'r (by simpa using hpred)
  · exact mem_le_foldl_max _ 0 e.id hmem

/-- **C4.** `get_stale_extractions(h)` returns exactly the papers that have
at least one extraction and whose latest extraction (maximal extraction id
for that paper) has a schema hash different from `h`; in particular a paper
extracted under `h1` and then (latest) under `h2 ≠ h1` is stale for `h1`
and not stale for `h2`, and the extraction stage's staleness guard skips a
paper that already has an extraction under the current schema hash. -/
theorem get_stale_extractions_correct (db : ReviewDatabase)
    (hids : (db.extractions.map (fun e => e.id)).Nodup) :
    (∀ h : String, ∀ p : Paper,
      (∃ s, (p, s) ∈ get_stale_extractions db h) ↔
        (p ∈ db.papers ∧ ∃ e, e ∈ db.extractions ∧ e.paper_id = p.id ∧
          (∀ e', e' ∈ db.extractions → e'.paper_id = p.id → e'.id ≤ e.id) ∧
          e.extraction_schema_hash ≠ h)) ∧
    (∀ p e1 e2, p ∈ db.papers → e1 ∈ db.extractions → e2 ∈ db.extractions →
      e1.paper_id = p.id → e2.paper_id = p.id →
      (∀ e', e' ∈ db.extractions → e'.paper_id = p.id → e'.id ≤ e2.id) →
      e1.extraction_schema_hash ≠ e2.extraction_schema_hash →
      ((∃ s, (p, s) ∈ get_stale_extractions db e1.extraction_schema_hash) ∧
       (∀ s, (p, s) ∉ get_stale_extractions db e2.extraction_schema_hash) ∧
       extraction_skip_check db p.id e2.extraction_schema_hash = true)) := by
  have main : ∀ h : String, ∀ p : Paper,
      (∃ s, (p, s) ∈ get_stale_extractions db h) ↔
        (p ∈ db.papers ∧ ∃ e, e ∈ db.extractions ∧ e.paper_id = p.id ∧
          (∀ e', e' ∈ db.extractions → e'.paper_id = p.id → e'.id ≤ e.id) ∧
          e.extraction_schema_hash ≠ h) := by
    intro h p
    constructor
    · rintro ⟨s, hs⟩
      unfold get_stale_extractions at hs
      obtain ⟨p', hp', hmem⟩ := List.mem_flatMap.mp hs
      obtain ⟨e, hef, hpair⟩ := List.mem_map.mp hmem
      obtain ⟨he, hpred⟩ := List.mem_filter.mp hef
      injection hpair with hpeq hseq
      simp only [Bool.and_eq_true, beq_iff_eq, bne_iff_ne, ne_eq] at hpred
      obtain ⟨⟨hpid, hhash⟩, hmax⟩ := hpred
      exact ⟨hpeq ▸ hp', e, he, hpeq ▸ hpid,
        maxExtractionId_le db.extractions p.id e.id (hpeq ▸ hmax), hhash⟩
    · rintro ⟨hp, e, he, hpe, hbound, hneq⟩
      have hmax := maxExtractionId_eq_some db.extractions p.id e he hpe hbound
      refine ⟨e.extraction_schema_hash, ?_⟩
      unfold get_stale_extractions
      apply List.mem_flatMap.mpr
      refine ⟨p, hp, List.mem_map.mpr ⟨e, List.mem_filter.mpr ⟨he, ?_⟩, rfl⟩⟩
      simp [hpe, hneq, hmax]
  refine ⟨main, ?_⟩
  intro p e1 e2 hp he1 he2 hp1 hp2 hlatest hne
  refine ⟨?_, ?_, ?_⟩
  · exact (main e1.extraction_schema_hash p).mpr
      ⟨hp, e2, he2, hp2, hlatest, fun hcon => hne hcon.symm⟩
  · intro s hs
    obtain ⟨_, e, he, hpe, hbound, hneq⟩ :=
      (main e2.extraction_schema_hash p).mp ⟨s, hs⟩
    have hid : e.id = e2.id :=
      le_antisymm (hlatest e he hpe) (hbound e2 he2 hp2)
    have heq : e = e2 := List.inj_on_of_nodup_map hids he he2 hid
    exact hneq (by rw [heq])
  · unfold extraction_skip_check
    apply List.any_eq_true.mpr
    exact ⟨e2, he2, by simp [hp2]⟩

theorem foldl_max_zero_mem (l : List Nat) (hne : l ≠ []) :
    l.foldl max 0 ∈ l := by
  rcases foldl_max_mem l 0 with h | h
  · cases l with
    | nil => exact absurd rfl hne
    | cons x xs =>
      have hx : x ≤ (x :: xs).foldl max 0 :=
        mem_le_foldl_max _ 0 x (List.mem_cons_self x xs)
      rw [h] at hx
      have hx0 : x = 0 := Nat.le_zero.mp hx
      rw [h, ← hx0]
      exact List.mem_cons_self x xs
  · exact h

/-- **C5.** `parse_pdf` versioning: when an asset with the same paper id
and PDF content hash already exists, the store is unchanged, no row is
inserted, and the returned version is an existing version for that hash
(the largest such); when the hash is new for the paper, exactly one row is
inserted, carrying version `max existing version + 1` (version 1 when the
paper has no assets), strictly greater than every existing version for
that paper — versions are never reused or decremented. -/
theorem parse_pdf_versioning (db : ReviewDatabase) (pid : Nat)
    (h path tpath used now : String) :
    ((∃ a ∈ db.full_text_assets, a.paper_id = pid ∧ a.pdf_hash = h) →
      (parse_pdf db pid h path tpath used now).1 = db ∧
      (parse_pdf db pid h path tpath used now).2.2 = false ∧
      (∃ a ∈ db.full_text_assets, a.paper_id = pid ∧ a.pdf_hash = h ∧
        a.parsed_text_version = (parse_pdf db pid h path tpath used now).2.1)) ∧
    ((∀ a ∈ db.full_text_assets, ¬(a.paper_id = pid ∧ a.pdf_hash = h)) →
      (parse_pdf db pid h path tpath used now).2.2 = true ∧
      (parse_pdf db pid h path tpath used now).2.1
        = lastVersion db.full_text_assets pid + 1 ∧
      (parse_pdf db pid h path tpath used now).1.full_text_assets
        = db.full_text_assets ++
          [{ id := nextAssetId db.full_text_assets, paper_id := pid,
             pdf_path := path, pdf_hash := h, parsed_text_path := tpath,
             parsed_text_version := lastVersion db.full_text_assets pid + 1,
             parser_used := used, parsed_at := now }] ∧
      (parse_pdf db pid h path tpath used now).1.papers = db.papers ∧
      (∀ a ∈ db.full_text_assets, a.paper_id = pid →
        a.parsed_text_version < (parse_pdf db pid h path tpath used now).2.1) ∧
      ((∀ a ∈ db.full_text_assets, a.paper_id ≠ pid) →
        (parse_pdf db pid h path tpath used now).2.1 = 1)) := by
  constructor
  · rintro ⟨a, ha, hpa, hha⟩
    have hmem : a.parsed_text_version ∈
        (db.full_text_assets.filter
          (fun x => x.paper_id == pid && x.pdf_hash == h)).map
          (fun x => x.parsed_text_version) :=
      List.mem_map.mpr ⟨a, List.mem_filter.mpr ⟨ha, by simp [hpa, hha]⟩, rfl⟩
    have hne := isEmpty_false_of_mem hmem
    have hnn := List.ne_nil_of_mem hmem
    have hex : existingVersion db.full_text_assets pid h
        = some (((db.full_text_assets.filter
            (fun x => x.paper_id == pid && x.pdf_hash == h)).map
            (fun x => x.parsed_text_version)).foldl max 0) := by
      unfold existingVersion
      simp only [hne, Bool.false_eq_true, if_false]
    have hach := foldl_max_zero_mem _ hnn
    obtain ⟨a', ha', hva'⟩ := List.mem_map.mp hach
    obtain ⟨ha'r, hpred⟩ := List.mem_filter.mp ha'
    simp only [Bool.and_eq_true, beq_iff_eq] at hpred
    refine ⟨?_, ?_, ⟨a', ha'r, hpred.1, hpred.2, ?_⟩⟩
    · unfold parse_pdf
      rw [hex]
    · unfold parse_pdf
      rw [hex]
    · unfold parse_pdf
      rw [hex]
      exact hva'
  · intro hnone
    have hfil : db.full_text_assets.filter
        (fun x => x.paper_id == pid && x.pdf_hash == h) = [] := by
      apply List.filter_eq_nil_iff.mpr
      intro a ha
      have := hnone a ha
      simp only [Bool.and_eq_true, beq_iff_eq]
      intro hcon
      exact this hcon
    have hex : existingVersion db.full_text_assets pid h = none := by
      unfold existingVersion
      simp [hfil]
    have hcomp : parse_pdf db pid h path tpath used now
        = ({ db with
             full_text_assets := db.full_text_assets ++
               [{ id := nextAssetId db.full_text_assets, paper_id := pid,
                  pdf_path := path, pdf_hash := h, parsed_text_path := tpath,
                  parsed_text_version := lastVersion db.full_text_assets pid + 1,
                  parser_used := used, parsed_at := now }] },
           lastVersion db.full_text_assets pid + 1, true) := by
      unfold parse_pdf
      rw [hex]
    refine ⟨?_, ?_, ?_, ?_, ?_, ?_⟩ <;> rw [hcomp] <;> dsimp only
    · intro a ha hpa
      have hmem : a.parsed_text_version ∈
          (db.full_text_assets.filter (fun x => x.paper_id == pid)).map
            (fun x => x.parsed_text_version) :=
        List.mem_map.mpr ⟨a, List.mem_filter.mpr ⟨ha, by simp [hpa]⟩, rfl⟩
      have := mem_le_foldl_max _ 0 _ hmem
      unfold lastVersion
      omega
    · intro hno
      have hfil2 : db.full_text_assets.filter (fun x => x.paper_id == pid)
          = [] := by
        apply List.filter_eq_nil_iff.mpr
        intro a ha
        simpa using hno a ha
      unfold lastVersion
      rw [hfil2]
      rfl

/-- Witness for C5: re-parsing the sample asset's hash returns version 1
without inserting; a new hash allocates version 2 in exactly one new row. -/
theorem parse_pdf_versioning_witness :
    ((parse_pdf sampleAssetDb 1 "hashA" "p" "t" "docling" "t2").1 = sampleAssetDb ∧
     (parse_pdf sampleAssetDb 1 "hashA" "p" "t" "docling" "t2").2.2 = false ∧
     (∃ a ∈ sampleAssetDb.full_text_assets, a.paper_id = 1 ∧ a.pdf_hash = "hashA" ∧
       a.parsed_text_version
         = (parse_pdf sampleAssetDb 1 "hashA" "p" "t" "docling" "t2").2.1)) ∧
    ((parse_pdf sampleAssetDb 1 "hashB" "p" "t" "docling" "t2").2.1
        = lastVersion sampleAssetDb.full_text_assets 1 + 1 ∧
     (parse_pdf sampleAssetDb 1 "hashB" "p" "t" "docling" "t2").2.2 = true) := by
  constructor
  · exact (parse_pdf_versioning sampleAssetDb 1 "hashA" "p" "t" "docling" "t2").1
      ⟨sampleAsset, by decide, rfl, rfl⟩
  · have hres := (parse_pdf_versioning sampleAssetDb 1 "hashB" "p" "t" "docling"
      "t2").2 (by decide)
    exact ⟨hres.2.1, hres.1⟩

/-- Witness for C4: in the sample store the single paper was extracted
under `"h1"` (id 1) and then `"h2"` (id 2); it is stale for `"h1"`, not
stale for `"h2"`, and the extraction stage's guard skips it for `"h2"`. -/
theorem get_stale_extractions_witness :
    (∃ s, (samplePaper, s) ∈ get_stale_extractions sampleStaleDb "h1") ∧
    (∀ s, (samplePaper, s) ∉ get_stale_extractions sampleStaleDb "h2") ∧
    extraction_skip_check sampleStaleDb 1 "h2" = true :=
  (get_stale_extractions_correct sampleStaleDb (by decide)).2
    samplePaper sampleExtraction1 sampleExtraction2 (by decide) (by decide)
    (by decide) rfl rfl (by decide) (by decide)

/-- **C3.** `screening_hash()` is a function of the `screening_criteria`
sub-section only and `extraction_hash()` of the `extraction_schema`
sub-section only: two specs with equal screening criteria have equal
screening hashes no matter how every other field differs (so editing the
extraction schema never changes `screening_hash()`), and symmetrically two
specs with equal extraction schemas have equal extraction hashes (so
editing the screening criteria never changes `extraction_hash()`); this
holds for every digest function, in particular SHA-256. -/
theorem protocol_hashes_depend_only_on_subsections (digest : String → String)
    (s1 s2 : ReviewSpec) :
    (s1.screening_criteria = s2.screening_criteria →
      ReviewSpec.screening_hash digest s1 = ReviewSpec.screening_hash digest s2) ∧
    (s1.extraction_schema = s2.extraction_schema →
      ReviewSpec.extraction_hash digest s1 = ReviewSpec.extraction_hash digest s2) := by
  constructor <;> intro h <;>
    simp [ReviewSpec.screening_hash, ReviewSpec.extraction_hash, h]

/-- Witness for C3: concrete specs `sampleSpecA`/`sampleSpecB` share only
their screening criteria and get the same screening hash, while
`sampleSpecA`/`sampleSpecC` share only their extraction schema and get the
same extraction hash (digest instantiated with the identity function). -/
theorem protocol_hashes_witness :
    (ReviewSpec.screening_hash (fun s => s) sampleSpecA
      = ReviewSpec.screening_hash (fun s => s) sampleSpecB) ∧
    (ReviewSpec.extraction_hash (fun s => s) sampleSpecA
      = ReviewSpec.extraction_hash (fun s => s) sampleSpecC) :=
  ⟨(protocol_hashes_depend_only_on_subsections (fun s => s) sampleSpecA sampleSpecB).1
      rfl,
   (protocol_hashes_depend_only_on_subsections (fun s => s) sampleSpecA sampleSpecC).2
      rfl⟩

/-- Each iteration of the `add_papers` loop either leaves the accumulated
state unchanged (a skip) or appends exactly one `INGESTED` row and counts it. -/
theorem add_paper_one_cases (now : String) (db : ReviewDatabase) (acc : Nat)
    (c : Citation) :
    add_paper_one now (db, acc) c = (db, acc) ∨
    add_paper_one now (db, acc) c =
      ({ db with
         papers := db.papers ++ [citationToPaper (nextPaperId db.papers) now c] },
       acc + 1) := by
  unfold add_paper_one
  by_cases h1 : dupPrecheck db.papers c.pmid = true
  · left; simp [h1]
  · by_cases h2 : uniqueViolation db.papers c.pmid = true
    · left; simp [h1, h2]
    · right; simp [h1, h2]

/-- The `add_papers` fold appends some list of fresh `INGESTED` rows and
counts exactly those rows. -/
theorem add_papers_fold_spec (now : String) (cits : List Citation) :
    ∀ db acc, ∃ new,
      List.foldl (add_paper_one now) (db, acc) cits =
        ({ db with papers := db.papers ++ new }, acc + new.length) ∧
      ∀ p ∈ new, p.status = "INGESTED" ∧ p.created_at = now ∧ p.updated_at = now := by
  induction cits with
  | nil =>
    intro db acc
    exact ⟨[], by simp, by simp⟩
  | cons c cs ih =>
    intro db acc
    rcases add_paper_one_cases now db acc c with h | h
    · obtain ⟨new, heq, hall⟩ := ih db acc
      exact ⟨new, by simpa [h] using heq, hall⟩
    · obtain ⟨new, heq, hall⟩ :=
        ih { db with
             papers := db.papers ++ [citationToPaper (nextPaperId db.papers) now c] }
          (acc + 1)
      refine ⟨citationToPaper (nextPaperId db.papers) now c :: new, ?_, ?_⟩
      · rw [List.foldl_cons, h, heq]
        have hlist :
            (db.papers ++ [citationToPaper (nextPaperId db.papers) now c]) ++ new
              = db.papers ++ (citationToPaper (nextPaperId db.papers) now c :: new) := by
          simp
        have hlen : acc + 1 + new.length
            = acc + (citationToPaper (nextPaperId db.papers) now c :: new).length := by
          simp; omega
        rw [hlist, hlen]
      · intro p hp
        rcases List.mem_cons.mp hp with h' | h'
        · subst h'; exact ⟨rfl, rfl, rfl⟩
        · exact hall p h'

/-- **C2.** `add_papers` only appends rows, each inserted row has status
`INGESTED`, and the returned count is exactly the number of rows inserted;
a citation whose PMID already exists in the store is skipped without
changing the store; a citation with no PMID is always inserted (no
deduplication at this layer). -/
theorem add_papers_correct (db : ReviewDatabase) (cits : List Citation)
    (now : String) :
    ((add_papers db cits now).1.papers.length
        = db.papers.length + (add_papers db cits now).2) ∧
    ((add_papers db cits now).1.screening_decisions = db.screening_decisions ∧
     (add_papers db cits now).1.full_text_assets = db.full_text_assets ∧
     (add_papers db cits now).1.extractions = db.extractions ∧
     (add_papers db cits now).1.evidence_spans = db.evidence_spans) ∧
    (∃ new, (add_papers db cits now).1.papers = db.papers ++ new ∧
      (add_papers db cits now).2 = new.length ∧
      ∀ p ∈ new, p.status = "INGESTED") ∧
    (∀ cit pm, cit.pmid = some pm → pmidExists db.papers pm = true →
      add_papers db [cit] now = (db, 0)) ∧
    (∀ cit, cit.pmid = none →
      add_papers db [cit] now =
        ({ db with
           papers := db.papers ++ [citationToPaper (nextPaperId db.papers) now cit] },
         1)) := by
  obtain ⟨new, heq, hall⟩ := add_papers_fold_spec now cits db 0
  have heq' : add_papers db cits now
      = ({ db with papers := db.papers ++ new }, new.length) := by
    simpa [add_papers] using heq
  refine ⟨?_, ?_, ?_, ?_, ?_⟩
  · rw [heq']; simp
  · rw [heq']; exact ⟨rfl, rfl, rfl, rfl⟩
  · exact ⟨new, by rw [heq'], by rw [heq'], fun p hp => (hall p hp).1⟩
  · intro cit pm hpm hex
    have h2 : uniqueViolation db.papers cit.pmid = true := by
      simp [uniqueViolation, hpm, hex]
    have hstep : add_paper_one now (db, 0) cit = (db, 0) := by
      unfold add_paper_one
      by_cases h1 : dupPrecheck db.papers cit.pmid = true
      · simp [h1]
      · simp [h1, h2]
    simp [add_papers, hstep]
  · intro cit h
    have hstep : add_paper_one now (db, 0) cit
        = ({ db with
             papers := db.papers ++ [citationToPaper (nextPaperId db.papers) now cit] },
           1) := by
      unfold add_paper_one
      simp [dupPrecheck, uniqueViolation, h]
    simp [add_papers, hstep]

/-- Witness for C2: re-ingesting the sample paper's PMID is a no-op with
count zero, and a PMID-less citation is always inserted. -/
theorem add_papers_correct_witness :
    (add_papers sampleDb [sampleCitationDup] "t1" = (sampleDb, 0)) ∧
    (add_papers sampleDb [sampleCitationNoPmid] "t1" =
      ({ sampleDb with
         papers := sampleDb.papers
           ++ [citationToPaper (nextPaperId sampleDb.papers) "t1" sampleCitationNoPmid] },
       1)) := by
  constructor
  · exact (add_papers_correct sampleDb [sampleCitationDup] "t1").2.2.2.1
      sampleCitationDup "101" rfl (by decide)
  · exact (add_papers_correct sampleDb [sampleCitationNoPmid] "t1").2.2.2.2
      sampleCitationNoPmid rfl

/-- **C1.** `update_status` raises on an unrecognized status, on an unknown
paper id, and on a transition not allowed from the paper's current status
(in particular any call on a paper in the terminal `SCREENED_OUT` or
`AUDITED` states fails); an `.error` result models the exception raised
before any write, so the paper's row is unchanged in every failure case;
on success exactly the selected paper's `status` and `updated_at` fields
are rewritten and every other table is untouched. -/
theorem update_status_correct (db : ReviewDatabase) (paper_id : Nat)
    (new_status now : String) :
    (new_status ∉ STATUSES →
      update_status db paper_id new_status now = .error (.unknownStatus new_status)) ∧
    ((∀ p ∈ db.papers, p.id ≠ paper_id) → new_status ∈ STATUSES →
      update_status db paper_id new_status now = .error (.notFound paper_id)) ∧
    (∀ row, db.papers.find? (fun p => p.id == paper_id) = some row →
      new_status ∈ STATUSES → new_status ∉ allowedFor row.status →
      update_status db paper_id new_status now =
        .error (.invalidTransition row.status new_status)) ∧
    (∀ row, db.papers.find? (fun p => p.id == paper_id) = some row →
      row.status = "SCREENED_OUT" ∨ row.status = "AUDITED" →
      ∃ e, update_status db paper_id new_status now = .error e) ∧
    (∀ db', update_status db paper_id new_status now = .ok db' →
      db'.screening_decisions = db.screening_decisions ∧
      db'.full_text_assets = db.full_text_assets ∧
      db'.extractions = db.extractions ∧
      db'.evidence_spans = db.evidence_spans ∧
      db'.papers = db.papers.map (fun p =>
        if p.id == paper_id then
          { p with status := new_status, updated_at := now }
        else p)) := by
  refine ⟨?_, ?_, ?_, ?_, ?_⟩
  · intro h
    simp [update_status, h]
  · intro hall hmem
    have h1 : ¬ new_status ∉ STATUSES := by simpa using hmem
    have hfind : db.papers.find? (fun p => p.id == paper_id) = none := by
      apply List.find?_eq_none.mpr
      intro p hp
      simpa using hall p hp
    simp [update_status, h1, hfind]
  · intro row hfind hmem hnall
    have h1 : ¬ new_status ∉ STATUSES := by simpa using hmem
    simp [update_status, h1, hfind, hnall]
  · intro row hfind hterm
    have hempty : allowedFor row.status = [] := by
      rcases hterm with h | h <;> rw [h] <;> rfl
    by_cases hmem : new_status ∈ STATUSES
    · have h1 : ¬ new_status ∉ STATUSES := by simpa using hmem
      refine ⟨.invalidTransition row.status new_status, ?_⟩
      have hnall : new_status ∉ allowedFor row.status := by simp [hempty]
      simp [update_status, h1, hfind, hnall]
    · exact ⟨.unknownStatus new_status, by simp [update_status, hmem]⟩
  · intro db' h
    unfold update_status at h
    split at h
    · cases h
    · split at h
      · cases h
      · split at h
        · cases h
        · cases h
          exact ⟨rfl, rfl, rfl, rfl, rfl⟩

/-- Witness for C1 at concrete inputs: each failure mode fires on the
one-paper sample store, and the successful `INGESTED → SCREENED_IN`
transition rewrites exactly the status and timestamp. -/
theorem update_status_correct_witness :
    (update_status sampleDb 1 "BOGUS" "t1" = .error (.unknownStatus "BOGUS")) ∧
    (update_status sampleDb 2 "PARSED" "t1" = .error (.notFound 2)) ∧
    (∃ e, update_status sampleDbOut 1 "PARSED" "t1" = .error e) ∧
    (sampleDbScreened.papers = sampleDb.papers.map (fun p =>
      if p.id == 1 then { p with status := "SCREENED_IN", updated_at := "t1" }
      else p)) := by
  refine ⟨?_, ?_, ?_, ?_⟩
  · exact (update_status_correct sampleDb 1 "BOGUS" "t1").1 (by decide)
  · exact (update_status_correct sampleDb 2 "PARSED" "t1").2.1 (by decide) (by decide)
  · exact (update_status_correct sampleDbOut 1 "PARSED" "t1").2.2.2.1
      { samplePaper with status := "SCREENED_OUT" } (by decide) (Or.inl rfl)
  · exact ((update_status_correct sampleDb 1 "SCREENED_IN" "t1").2.2.2.2
      sampleDbScreened (by rfl)).2.2.2.2

/-- `titleMatches` agrees with the rational comparison
`title_similarity > 0.9` of the source. -/
theorem titleMatches_iff_ratio (t1 t2 : String) :
    titleMatches t1 t2 = true ↔ (9 : ℚ) / 10 < title_similarity t1 t2 := by
  unfold titleMatches title_similarity
  by_cases h : t1.data.length + t2.data.length = 0
  · simp only [h, if_true, if_pos]
    norm_num
  · have hpos : 0 < ((t1.data.length + t2.data.length : ℕ) : ℚ) := by
      have h0 : 0 < t1.data.length + t2.data.length := Nat.pos_of_ne_zero h
      exact_mod_cast h0
    simp only [h, if_false, decide_eq_true_eq]
    rw [div_lt_div_iff₀ (by norm_num : (0 : ℚ) < 10) (by push_cast at hpos ⊢; exact hpos)]
    constructor
    · intro hlt
      have : ((9 * (t1.data.length + t2.data.length) : ℕ) : ℚ)
          < ((20 * matchTotal t1.data t2.data : ℕ) : ℚ) := by exact_mod_cast hlt
      push_cast at this ⊢
      linarith
    · intro hlt
      have : ((9 * (t1.data.length + t2.data.length) : ℕ) : ℚ)
          < ((20 * matchTotal t1.data t2.data : ℕ) : ℚ) := by
        push_cast
        linarith
      exact_mod_cast this

set_option maxRecDepth 1000000 in
/-- **C7.** `_find_match` evaluates in fixed priority order with the first
hit winning: (1) exact match on the DOI lower-cased and trimmed, (2) exact
match on the PMID trimmed, (3) first fuzzy title match, where a match is
declared exactly when the similarity ratio exceeds 0.9 (conjunct 4 relates
the Boolean test to the rational ratio); titles differing only by a
trailing period and letter case match, unrelated titles do not. -/
theorem find_match_priority (cit : Citation)
    (doi_index pmid_index title_index : List (String × Nat)) :
    (∀ idx, strTruthy cit.doi = true →
      dictGet doi_index (pyLower (pyStrip (cit.doi.getD ""))) = some idx →
      _find_match cit doi_index pmid_index title_index = some idx) ∧
    ((strTruthy cit.doi = false ∨
        dictGet doi_index (pyLower (pyStrip (cit.doi.getD ""))) = none) →
      ∀ idx, strTruthy cit.pmid = true →
        dictGet pmid_index (pyStrip (cit.pmid.getD "")) = some idx →
        _find_match cit doi_index pmid_index title_index = some idx) ∧
    ((strTruthy cit.doi = false ∨
        dictGet doi_index (pyLower (pyStrip (cit.doi.getD ""))) = none) →
      (strTruthy cit.pmid = false ∨
        dictGet pmid_index (pyStrip (cit.pmid.getD "")) = none) →
      _find_match cit doi_index pmid_index title_index =
        (title_index.find? (fun kv =>
          titleMatches (normalize_title cit.title) kv.1)).map (fun kv => kv.2)) ∧
    (∀ t1 t2, titleMatches t1 t2 = true ↔ (9 : ℚ) / 10 < title_similarity t1 t2) ∧
    (titleMatches (normalize_title "Autonomous suturing with the STAR robot")
      (normalize_title "Autonomous suturing with the STAR robot.") = true) ∧
    (titleMatches (normalize_title "Study Alpha")
      (normalize_title "Completely Different Study") = false) := by
  refine ⟨?_, ?_, ?_, titleMatches_iff_ratio, by decide, by decide⟩
  · intro idx ht hd
    unfold _find_match
    rw [if_pos ht, hd]
  · intro hdoi idx ht hd
    have hnone : (if strTruthy cit.doi then
        dictGet doi_index (pyLower (pyStrip (cit.doi.getD ""))) else none) = none := by
      rcases hdoi with h | h
      · rw [if_neg (by simp [h])]
      · rw [h]
        simp
    unfold _find_match
    rw [hnone, if_pos ht, hd]
  · intro hdoi hpmid
    have hnone : (if strTruthy cit.doi then
        dictGet doi_index (pyLower (pyStrip (cit.doi.getD ""))) else none) = none := by
      rcases hdoi with h | h
      · rw [if_neg (by simp [h])]
      · rw [h]
        simp
    have hnone2 : (if strTruthy cit.pmid then
        dictGet pmid_index (pyStrip (cit.pmid.getD "")) else none) = none := by
      rcases hpmid with h | h
      · rw [if_neg (by simp [h])]
      · rw [h]
        simp
    unfold _find_match
    rw [hnone, hnone2]

/-- Witness for C7: a concrete citation whose DOI (trimmed, lower-cased)
is indexed at 0 resolves to 0 by the DOI rule even though its PMID is
indexed elsewhere. -/
theorem find_match_priority_witness :
    _find_match sampleOaCit [("10.1/a", 0)] [("201", 5)] [] = some 0 :=
  (find_match_priority sampleOaCit [("10.1/a", 0)] [("201", 5)] []).1 0
    (by decide) (by decide)

/-- **C8.** `_merge` keeps every populated field of the primary record
(title and source always) and back-fills exactly the null/missing fields
among doi, pmid, abstract, journal, year, authors from the secondary; on a
match, `deduplicate`'s per-citation step replaces the matched entry by the
merged record (same list length, so the secondary is not appended) and
appends the pair (kept title, removed secondary title) to the
duplicate-pairs log. -/
theorem merge_frame_correct :
    (∀ p s : Citation,
      (_merge p s).title = p.title ∧
      (_merge p s).source = p.source ∧
      (_merge p s).doi = fillField p.doi s.doi ∧
      (_merge p s).pmid = fillField p.pmid s.pmid ∧
      (_merge p s).abstract = fillField p.abstract s.abstract ∧
      (_merge p s).journal = fillField p.journal s.journal ∧
      (_merge p s).year = fillField p.year s.year ∧
      (∀ d, p.doi = some d → (_merge p s).doi = some d) ∧
      (∀ d, p.pmid = some d → (_merge p s).pmid = some d) ∧
      (p.authors ≠ [] → (_merge p s).authors = p.authors) ∧
      (p.doi = none → (_merge p s).doi = s.doi) ∧
      (p.authors = [] → s.authors ≠ [] → (_merge p s).authors = s.authors)) ∧
    (∀ st oa idx,
      _find_match oa st.doi_index st.pmid_index st.title_index = some idx →
      (dedupStep st oa).unique
          = st.unique.set idx (_merge (st.unique.getD idx dummyCitation) oa) ∧
      (dedupStep st oa).unique.length = st.unique.length ∧
      (dedupStep st oa).duplicate_pairs = st.duplicate_pairs ++
        [((_merge (st.unique.getD idx dummyCitation) oa).title, oa.title)] ∧
      (_merge (st.unique.getD idx dummyCitation) oa).title
          = (st.unique.getD idx dummyCitation).title) := by
  constructor
  · intro p s
    refine ⟨rfl, rfl, rfl, rfl, rfl, rfl, rfl, ?_, ?_, ?_, ?_, ?_⟩
    · intro d hd
      simp [_merge, fillField, hd]
    · intro d hd
      simp [_merge, fillField, hd]
    · intro h
      cases hpa : p.authors with
      | nil => exact absurd hpa h
      | cons x xs => simp [_merge, hpa]
    · intro h
      simp [_merge, fillField, h]
    · intro hp hs
      cases hsa : s.authors with
      | nil => exact absurd hsa hs
      | cons x xs => simp [_merge, hp, hsa]
  · intro st oa idx h
    unfold dedupStep
    rw [h]
    exact ⟨rfl, by simp, rfl, rfl⟩

/-- Witness for C8: the spec's example — primary and secondary share PMID
"1" with differing DOIs; the merge keeps the primary's DOI and title,
fills the missing abstract from the secondary, the unique list keeps its
length, and the duplicate pair is logged. -/
theorem merge_frame_witness :
    ((_merge samplePrimaryCit sampleSecondaryCit).doi = some "10.a") ∧
    ((_merge samplePrimaryCit sampleSecondaryCit).abstract
        = fillField samplePrimaryCit.abstract sampleSecondaryCit.abstract) ∧
    ((dedupStep sampleSt1 sampleSecondaryCit).unique.length
        = sampleSt1.unique.length) ∧
    ((dedupStep sampleSt1 sampleSecondaryCit).duplicate_pairs
        = sampleSt1.duplicate_pairs ++
          [((_merge (sampleSt1.unique.getD 0 dummyCitation)
              sampleSecondaryCit).title, sampleSecondaryCit.title)]) := by
  refine ⟨?_, ?_, ?_, ?_⟩
  · exact (merge_frame_correct.1 samplePrimaryCit sampleSecondaryCit).2.2.2.2.2.2.2.1
      "10.a" rfl
  · exact (merge_frame_correct.1 samplePrimaryCit sampleSecondaryCit).2.2.2.2.1
  · exact (merge_frame_correct.2 sampleSt1 sampleSecondaryCit 0 (by decide)).2.1
  · exact (merge_frame_correct.2 sampleSt1 sampleSecondaryCit 0 (by decide)).2.2.1


/-- With unique paper ids, `find?` by id returns exactly the member row. -/
theorem find_id_eq_of_nodup (papers : List Paper)
    (hids : (papers.map (fun r => r.id)).Nodup) (p : Paper) (hp : p ∈ papers) :
    papers.find? (fun q => q.id == p.id) = some p := by
  induction papers with
  | nil => cases hp
  | cons q rest ih =>
    simp only [List.map_cons, List.nodup_cons] at hids
    obtain ⟨hqn, hrest⟩ := hids
    by_cases hq : (q.id == p.id) = true
    · have hqp : q.id = p.id := by simpa using hq
      rcases List.mem_cons.mp hp with rfl | hp'
      · exact List.find?_cons_of_pos rest hq
      · exact absurd (hqp ▸ List.mem_map.mpr ⟨p, hp', rfl⟩) hqn
    · have hne : q.id ≠ p.id := by simpa using hq
      rcases List.mem_cons.mp hp with rfl | hp'
      · exact absurd rfl hne
      · rw [List.find?_cons_of_neg rest hq]
        exact ih hrest hp'

/-- The status-update map leaves every row with a different id unchanged. -/
theorem statusMap_mem_of_ne (papers : List Paper) (pid : Nat) (ns now : String)
    (q : Paper) (hq : q ∈ papers) (hne : q.id ≠ pid) :
    q ∈ papers.map (fun p =>
      if p.id == pid then { p with status := ns, updated_at := now } else p) := by
  refine List.mem_map.mpr ⟨q, hq, ?_⟩
  simp [hne]

/-- The status-update map preserves the id column. -/
theorem statusMap_ids (papers : List Paper) (pid : Nat) (ns now : String) :
    (papers.map (fun p =>
      if p.id == pid then { p with status := ns, updated_at := now } else p)).map
        (fun r => r.id)
      = papers.map (fun r => r.id) := by
  rw [List.map_map]
  apply List.map_congr_left
  intro p _
  by_cases h : (p.id == pid) = true <;> simp [h, Function.comp]

/-- Success form of `update_status` on a present row with a legal move. -/
theorem update_status_ok (db : ReviewDatabase) (p : Paper) (ns now : String)
    (hids : (db.papers.map (fun r => r.id)).Nodup) (hp : p ∈ db.papers)
    (hns : ns ∈ STATUSES) (hallow : ns ∈ allowedFor p.status) :
    update_status db p.id ns now
      = .ok { db with
              papers := db.papers.map (fun r =>
                if r.id == p.id then { r with status := ns, updated_at := now }
                else r) } := by
  have h1 : ¬ ns ∉ STATUSES := by simpa using hns
  have hfind := find_id_eq_of_nodup db.papers hids p hp
  unfold update_status
  rw [if_neg h1, hfind]
  dsimp only
  rw [if_neg (by simpa using hallow)]

/-- `agreementStatus` always lands in the status set and is always allowed
from `INGESTED`. -/
theorem agreementStatus_legal (d1 d2 : ScreeningDecisionOut) :
    agreementStatus d1 d2 ∈ STATUSES ∧
    agreementStatus d1 d2 ∈ allowedFor "INGESTED" := by
  unfold agreementStatus
  by_cases hA : (d1.decision == "include" && d2.decision == "include") = true
  · rw [if_pos hA]
    exact ⟨by decide, by decide⟩
  · rw [if_neg hA]
    by_cases hB : (d1.decision == "exclude" && d2.decision == "exclude") = true
    · rw [if_pos hB]
      exact ⟨by decide, by decide⟩
    · rw [if_neg hB]
      exact ⟨by decide, by decide⟩

/-- The two agreement branches and the disagreement branch of
`run_screening`. -/
theorem agreementStatus_cases (d1 d2 : ScreeningDecisionOut) :
    (d1.decision = "include" → d2.decision = "include" →
      agreementStatus d1 d2 = "SCREENED_IN") ∧
    (d1.decision = "exclude" → d2.decision = "exclude" →
      agreementStatus d1 d2 = "SCREENED_OUT") ∧
    (d1.decision ≠ d2.decision →
      agreementStatus d1 d2 = "SCREEN_FLAGGED") := by
  refine ⟨?_, ?_, ?_⟩
  · intro h1 h2
    unfold agreementStatus
    rw [if_pos (by simp [h1, h2])]
  · intro h1 h2
    unfold agreementStatus
    rw [if_neg (by simp [h1]), if_pos (by simp [h1, h2])]
  · intro hne
    unfold agreementStatus
    have hA : ¬ (d1.decision == "include" && d2.decision == "include") = true := by
      simp only [Bool.and_eq_true, beq_iff_eq]
      rintro ⟨ha, hb⟩
      exact hne (ha.trans hb.symm)
    have hB : ¬ (d1.decision == "exclude" && d2.decision == "exclude") = true := by
      simp only [Bool.and_eq_true, beq_iff_eq]
      rintro ⟨ha, hb⟩
      exact hne (ha.trans hb.symm)
    rw [if_neg hA, if_neg hB]

/-- Behaviour of the `run_screening` loop when every oracle call returns:
the loop completes, only papers of the snapshot are touched, and each
snapshot paper gets exactly two appended decisions (pass 1 then pass 2)
and the agreement status. -/
theorem run_screening_loop_spec
    (oracle : Paper → Nat → Except String ScreeningDecisionOut) (now : String)
    (hoks : ∀ p n, ∃ d, oracle p n = .ok d) :
    ∀ (todo : List Paper) (db : ReviewDatabase) (stats : ScreenStats),
    (∀ p ∈ todo, p ∈ db.papers) →
    ((db.papers.map (fun r => r.id)).Nodup) →
    ((todo.map (fun r => r.id)).Nodup) →
    (∀ p ∈ todo, p.status = "INGESTED") →
    ∃ db' stats',
      run_screening_loop oracle now todo db stats = .ok (db', stats') ∧
      ((db'.papers.map (fun r => r.id)).Nodup) ∧
      db'.full_text_assets = db.full_text_assets ∧
      db'.extractions = db.extractions ∧
      db'.evidence_spans = db.evidence_spans ∧
      (∀ q ∈ db.papers, q.id ∉ todo.map (fun r => r.id) → q ∈ db'.papers) ∧
      (∀ pid, pid ∉ todo.map (fun r => r.id) →
        db'.screening_decisions.filter (fun r => r.paper_id == pid)
          = db.screening_decisions.filter (fun r => r.paper_id == pid)) ∧
      (∀ p ∈ todo,
        ∃ d1 d2, oracle p 1 = .ok d1 ∧ oracle p 2 = .ok d2 ∧
          (∃ r1 r2,
            db'.screening_decisions.filter (fun r => r.paper_id == p.id)
              = db.screening_decisions.filter (fun r => r.paper_id == p.id)
                  ++ [r1, r2] ∧
            r1.pass_number = 1 ∧ r1.decision = d1.decision ∧
            r2.pass_number = 2 ∧ r2.decision = d2.decision) ∧
          (∃ q ∈ db'.papers, q.id = p.id ∧
            q.status = agreementStatus d1 d2)) := by
  intro todo
  induction todo with
  | nil =>
    intro db stats _ hids _ _
    exact ⟨db, stats, rfl, hids, rfl, rfl, rfl,
      fun q hq _ => hq, fun pid _ => rfl, by simp⟩
  | cons p rest ih =>
    intro db stats hmem hids htodo hst
    obtain ⟨d1, h1⟩ := hoks p 1
    obtain ⟨d2, h2⟩ := hoks p 2
    simp only [List.map_cons, List.nodup_cons] at htodo
    obtain ⟨hpn, hrestnd⟩ := htodo
    have hp : p ∈ db.papers := hmem p (List.mem_cons_self p rest)
    have hpst : p.status = "INGESTED" := hst p (List.mem_cons_self p rest)
    set db1 := add_screening_decision db p.id 1 d1.decision d1.rationale
      MODEL now with hdb1
    set db2 := add_screening_decision db1 p.id 2 d2.decision d2.rationale
      MODEL now with hdb2
    have hpap2 : db2.papers = db.papers := rfl
    have hlegal := agreementStatus_legal d1 d2
    have hupd : update_status db2 p.id (agreementStatus d1 d2) now
        = .ok { db2 with
                papers := db2.papers.map (fun r =>
                  if r.id == p.id then
                    { r with status := agreementStatus d1 d2,
                             updated_at := now }
                  else r) } := by
      apply update_status_ok db2 p (agreementStatus d1 d2) now
      · rw [hpap2]; exact hids
      · rw [hpap2]; exact hp
      · exact hlegal.1
      · rw [hpst]; exact hlegal.2
    set db3 : ReviewDatabase :=
      { db2 with
        papers := db2.papers.map (fun r =>
          if r.id == p.id then
            { r with status := agreementStatus d1 d2, updated_at := now }
          else r) } with hdb3
    have hloop : run_screening_loop oracle now (p :: rest) db stats
        = run_screening_loop oracle now rest db3
            (bumpStats stats (agreementStatus d1 d2)) := by
      conv_lhs => rw [run_screening_loop]
      rw [h1]
      dsimp only
      rw [h2]
      dsimp only
      rw [← hdb1, ← hdb2, hupd]
    have hids3 : (db3.papers.map (fun r => r.id)).Nodup := by
      have hmapids := statusMap_ids db2.papers p.id (agreementStatus d1 d2) now
      rw [hdb3]
      dsimp only
      rw [hmapids]
      exact hids
    have hmem3 : ∀ q ∈ rest, q ∈ db3.papers := by
      intro q hq
      have hqid : q.id ≠ p.id := by
        intro hcon
        exact hpn (hcon ▸ List.mem_map.mpr ⟨q, hq, rfl⟩)
      exact statusMap_mem_of_ne db2.papers p.id (agreementStatus d1 d2) now q
        (hpap2 ▸ hmem q (List.mem_cons_of_mem p hq)) hqid
    have hst3 : ∀ q ∈ rest, q.status = "INGESTED" :=
      fun q hq => hst q (List.mem_cons_of_mem p hq)
    obtain ⟨db', stats', hrun, hids', hfta, hext, hspans, huntouched, hother,
        hdone⟩ := ih db3 (bumpStats stats (agreementStatus d1 d2)) hmem3 hids3
        hrestnd hst3
    have hdec3 : ∀ pid, db3.screening_decisions.filter
          (fun r => r.paper_id == pid)
        = db.screening_decisions.filter (fun r => r.paper_id == pid)
            ++ (if pid = p.id then
              [{ id := nextDecisionId db.screening_decisions, paper_id := p.id,
                 pass_number := 1, decision := d1.decision,
                 rationale := d1.rationale, model := MODEL, decided_at := now },
               { id := nextDecisionId db1.screening_decisions, paper_id := p.id,
                 pass_number := 2, decision := d2.decision,
                 rationale := d2.rationale, model := MODEL,
                 decided_at := now }]
              else []) := by
      intro pid
      have hrows : db3.screening_decisions
          = db.screening_decisions ++
            [{ id := nextDecisionId db.screening_decisions, paper_id := p.id,
               pass_number := 1, decision := d1.decision,
               rationale := d1.rationale, model := MODEL, decided_at := now },
             { id := nextDecisionId db1.screening_decisions, paper_id := p.id,
               pass_number := 2, decision := d2.decision,
               rationale := d2.rationale, model := MODEL,
               decided_at := now }] := by
        rw [hdb3, hdb2, hdb1]
        simp [add_screening_decision]
      rw [hrows, List.filter_append]
      by_cases hpid : pid = p.id
      · subst hpid
        simp
      · rw [if_neg hpid]
        have hbeq : (p.id == pid) = false :=
          beq_eq_false_iff_ne.mpr (Ne.symm hpid)
        simp [List.filter_cons, List.filter_nil, hbeq]
    refine ⟨db', stats', hloop ▸ hrun, hids', hfta, hext, hspans, ?_, ?_, ?_⟩
    · intro q hq hnotin
      simp only [List.map_cons, List.mem_cons, not_or] at hnotin
      obtain ⟨hqp, hqrest⟩ := hnotin
      have hq3 : q ∈ db3.papers :=
        statusMap_mem_of_ne db2.papers p.id (agreementStatus d1 d2) now q
          (hpap2 ▸ hq) hqp
      exact huntouched q hq3 hqrest
    · intro pid hnotin
      simp only [List.map_cons, List.mem_cons, not_or] at hnotin
      obtain ⟨hpidp, hpidrest⟩ := hnotin
      rw [hother pid hpidrest, hdec3 pid, if_neg hpidp, List.append_nil]
    · intro q hq
      rcases List.mem_cons.mp hq with heq | hq'
      · subst heq
        refine ⟨d1, d2, h1, h2, ?_, ?_⟩
        · have hfil := hdec3 q.id
          rw [if_pos rfl] at hfil
          exact ⟨_, _, (hother q.id hpn).trans hfil, rfl, rfl, rfl, rfl⟩
        · have hq3 :
              ({ q with
                 status := agreementStatus d1 d2,
                 updated_at := now } : Paper) ∈ db3.papers := by
            rw [hdb3]
            exact List.mem_map.mpr ⟨q, hpap2 ▸ hp, by simp⟩
          exact ⟨_, huntouched _ hq3 (by simpa using hpn), rfl, rfl⟩
      · obtain ⟨e1, e2, he1, he2, ⟨r1, r2, hfil, hr⟩, hstat⟩ := hdone q hq'
        have hqid : q.id ≠ p.id := by
          intro hcon
          exact hpn (hcon ▸ List.mem_map.mpr ⟨q, hq', rfl⟩)
        refine ⟨e1, e2, he1, he2, ⟨r1, r2, ?_, hr.1, hr.2.1, hr.2.2.1,
          hr.2.2.2⟩, hstat⟩
        rw [hfil, hdec3 q.id, if_neg hqid, List.append_nil]


/-- Snapshot facts: members, statuses, and id-uniqueness of
`get_papers_by_status`. -/
theorem get_papers_by_status_facts (db : ReviewDatabase) (st : String)
    (hids : (db.papers.map (fun r => r.id)).Nodup) :
    (∀ p ∈ get_papers_by_status db st, p ∈ db.papers) ∧
    (∀ p ∈ get_papers_by_status db st, p.status = st) ∧
    ((get_papers_by_status db st).map (fun r => r.id)).Nodup := by
  refine ⟨?_, ?_, ?_⟩
  · intro p hp
    exact (List.mem_filter.mp hp).1
  · intro p hp
    simpa using (List.mem_filter.mp hp).2
  · exact hids.sublist ((List.filter_sublist db.papers).map (fun r => r.id))

/-- **C9.** With every model call returning, the dual-pass screening runner
completes and, for every `INGESTED` paper of the snapshot, appends exactly
two screening decisions (pass 1 then pass 2, recording the two decisions)
and sets the agreement status; include/include gives `SCREENED_IN`,
exclude/exclude gives `SCREENED_OUT`, and any disagreement gives
`SCREEN_FLAGGED` — never `SCREENED_IN` or `SCREENED_OUT`. -/
theorem run_screening_dual_pass
    (oracle : Paper → Nat → Except String ScreeningDecisionOut)
    (db : ReviewDatabase) (now : String)
    (hoks : ∀ p n, ∃ d, oracle p n = .ok d)
    (hids : (db.papers.map (fun r => r.id)).Nodup) :
    (∃ db' stats', run_screening oracle db now = .ok (db', stats') ∧
      ∀ p ∈ get_papers_by_status db "INGESTED",
        ∃ d1 d2, oracle p 1 = .ok d1 ∧ oracle p 2 = .ok d2 ∧
          (∃ r1 r2,
            db'.screening_decisions.filter (fun r => r.paper_id == p.id)
              = db.screening_decisions.filter (fun r => r.paper_id == p.id)
                  ++ [r1, r2] ∧
            r1.pass_number = 1 ∧ r1.decision = d1.decision ∧
            r2.pass_number = 2 ∧ r2.decision = d2.decision) ∧
          (∃ q ∈ db'.papers, q.id = p.id ∧
            q.status = agreementStatus d1 d2)) ∧
    (∀ d1 d2 : ScreeningDecisionOut,
      (d1.decision = "include" → d2.decision = "include" →
        agreementStatus d1 d2 = "SCREENED_IN") ∧
      (d1.decision = "exclude" → d2.decision = "exclude" →
        agreementStatus d1 d2 = "SCREENED_OUT") ∧
      (d1.decision ≠ d2.decision →
        agreementStatus d1 d2 = "SCREEN_FLAGGED" ∧
        agreementStatus d1 d2 ≠ "SCREENED_IN" ∧
        agreementStatus d1 d2 ≠ "SCREENED_OUT")) := by
  constructor
  · obtain ⟨hmem, hsts, hnd⟩ := get_papers_by_status_facts db "INGESTED" hids
    obtain ⟨db', stats', hrun, _, _, _, _, _, _, hdone⟩ :=
      run_screening_loop_spec oracle now hoks
        (get_papers_by_status db "INGESTED") db
        (ScreenStats.mk 0 0 0 (get_papers_by_status db "INGESTED").length)
        hmem hids hnd hsts
    exact ⟨db', stats', hrun, hdone⟩
  · intro d1 d2
    obtain ⟨hA, hB, hC⟩ := agreementStatus_cases d1 d2
    refine ⟨hA, hB, fun hne => ⟨hC hne, ?_, ?_⟩⟩
    · rw [hC hne]; decide
    · rw [hC hne]; decide

/-- Witness for C9: on the one-paper sample store, a pass-1 `include` /
pass-2 `exclude` oracle flags the paper, and exactly two decisions are
recorded. -/
theorem run_screening_dual_pass_witness :
    ∃ db' stats',
      run_screening sampleDisagreeOracle sampleDb "t1" = .ok (db', stats') ∧
      (∃ q ∈ db'.papers, q.status = "SCREEN_FLAGGED") ∧
      (∃ r1 r2, db'.screening_decisions.filter (fun r => r.paper_id == 1)
          = [r1, r2] ∧ r1.pass_number = 1 ∧ r2.pass_number = 2) := by
  obtain ⟨h1, _⟩ := run_screening_dual_pass sampleDisagreeOracle sampleDb "t1"
    (fun p n => ⟨_, rfl⟩) (by decide)
  obtain ⟨db', stats', hrun, hall⟩ := h1
  have hp : samplePaper ∈ get_papers_by_status sampleDb "INGESTED" := by decide
  obtain ⟨d1, d2, hd1, hd2, ⟨r1, r2, hfil, hp1, _, hp2, _⟩, q, hqmem, _, hqst⟩ :=
    hall samplePaper hp
  have hd1' : ScreeningDecisionOut.mk "include" "r1" = d1 := Except.ok.inj hd1
  have hd2' : ScreeningDecisionOut.mk "exclude" "r2" = d2 := Except.ok.inj hd2
  refine ⟨db', stats', hrun, ⟨q, hqmem, ?_⟩, ⟨r1, r2, ?_, hp1, hp2⟩⟩
  · rw [hqst, ← hd1', ← hd2']
    decide
  · simpa [samplePaper, sampleDb] using hfil

/-- **C10.** `update_audit` on a span id absent from `evidence_spans` is a
silent no-op: no error, store unchanged — in contrast to `update_status`,
which raises `NotFound` on an unknown paper id. -/
theorem update_audit_missing_span_noop (db : ReviewDatabase) (span_id : Nat)
    (status model rationale now : String)
    (_hstatus : status ∈ ["pending", "verified", "flagged"])
    (hno : ∀ sp ∈ db.evidence_spans, sp.id ≠ span_id) :
    update_audit db span_id status model rationale now = db ∧
    (∀ pid ns now2, (∀ p ∈ db.papers, p.id ≠ pid) → ns ∈ STATUSES →
      update_status db pid ns now2 = .error (.notFound pid)) := by
  constructor
  · have hcong : db.evidence_spans.map (fun sp =>
        if sp.id == span_id then
          { sp with audit_status := status, auditor_model := some model,
                    audit_rationale := some rationale, audited_at := some now }
        else sp) = db.evidence_spans.map id := by
      apply List.map_congr_left
      intro sp hsp
      rw [if_neg (by simpa using hno sp hsp)]
      rfl
    unfold update_audit
    rw [hcong, List.map_id]
  · intro pid ns now2 hall hns
    have h1 : ¬ ns ∉ STATUSES := by simpa using hns
    have hfind : db.papers.find? (fun p => p.id == pid) = none := by
      apply List.find?_eq_none.mpr
      intro p hp
      simpa using hall p hp
    simp [update_status, h1, hfind]

/-- Witness for C10: auditing unknown span id 2 with a valid status leaves
the sample store (holding only span 1) unchanged, while `update_status` on
unknown paper id 9 raises. -/
theorem update_audit_missing_span_noop_witness :
    update_audit sampleSpanDb 2 "verified" "m" "why" "t2" = sampleSpanDb ∧
    update_status sampleSpanDb 9 "PARSED" "t2" = .error (.notFound 9) := by
  have h := update_audit_missing_span_noop sampleSpanDb 2 "verified" "m" "why"
    "t2" (by decide) (by decide)
  exact ⟨h.1, h.2 9 "PARSED" "t2" (by decide) (by decide)⟩


/-- Behaviour of the `parse_all_pdfs` loop: a PDF is found for every paper,
the parse attempt fails exactly on the papers of `fails`, and a successful
attempt only rewrites non-paper tables.  Failures are tallied and skipped
over; every non-failing paper of the snapshot reaches `PARSED`. -/
theorem parse_all_pdfs_loop_spec
    (find_pdf : Nat → Option String)
    (attempt : ReviewDatabase → String → Nat → Except String (ReviewDatabase × String))
    (fails : Nat → Bool) (now : String)
    (hfind : ∀ pid, find_pdf pid ≠ none)
    (hfail : ∀ st path pid, fails pid = true → ∃ e, attempt st path pid = .error e)
    (hsucc : ∀ st path pid, fails pid = false →
      ∃ db1 pu, attempt st path pid = .ok (db1, pu))
    (hframe : ∀ st path pid db1 pu, attempt st path pid = .ok (db1, pu) →
      db1.papers = st.papers) :
    ∀ (todo : List Paper) (db : ReviewDatabase) (stats : ParseStats),
    (∀ p ∈ todo, p ∈ db.papers) →
    ((db.papers.map (fun r => r.id)).Nodup) →
    ((todo.map (fun r => r.id)).Nodup) →
    (∀ p ∈ todo, p.status = "PDF_ACQUIRED") →
    ∃ db' stats',
      parse_all_pdfs_loop find_pdf attempt now todo db stats = (db', stats') ∧
      stats'.failed = stats.failed + (todo.filter (fun p => fails p.id)).length ∧
      stats'.parsed = stats.parsed + (todo.filter (fun p => !fails p.id)).length ∧
      (∀ q ∈ db.papers, q.id ∉ todo.map (fun r => r.id) → q ∈ db'.papers) ∧
      (∀ p ∈ todo, fails p.id = true → p ∈ db'.papers) ∧
      (∀ p ∈ todo, fails p.id = false →
        ∃ q ∈ db'.papers, q.id = p.id ∧ q.status = "PARSED") := by
  intro todo
  induction todo with
  | nil =>
    intro db stats _ _ _ _
    exact ⟨db, stats, rfl, by simp, by simp, fun q hq _ => hq, by simp, by simp⟩
  | cons p rest ih =>
    intro db stats hmem hids htodo hst
    obtain ⟨path, hpath⟩ : ∃ path, find_pdf p.id = some path := by
      cases h : find_pdf p.id with
      | none => exact absurd h (hfind p.id)
      | some path => exact ⟨path, rfl⟩
    simp only [List.map_cons, List.nodup_cons] at htodo
    obtain ⟨hpn, hrestnd⟩ := htodo
    have hp : p ∈ db.papers := hmem p (List.mem_cons_self p rest)
    have hpst : p.status = "PDF_ACQUIRED" := hst p (List.mem_cons_self p rest)
    have hmemr : ∀ q ∈ rest, q ∈ db.papers :=
      fun q hq => hmem q (List.mem_cons_of_mem p hq)
    have hstr : ∀ q ∈ rest, q.status = "PDF_ACQUIRED" :=
      fun q hq => hst q (List.mem_cons_of_mem p hq)
    by_cases hfp : fails p.id = true
    · obtain ⟨e, he⟩ := hfail db path p.id hfp
      have hloop : parse_all_pdfs_loop find_pdf attempt now (p :: rest) db stats
          = parse_all_pdfs_loop find_pdf attempt now rest db
              { stats with failed := stats.failed + 1 } := by
        conv_lhs => rw [parse_all_pdfs_loop]
        rw [hpath]
        dsimp only
        rw [he]
      obtain ⟨db', stats', hrun, hfailed, hparsed, huntouched, hkeep, hdone⟩ :=
        ih db { stats with failed := stats.failed + 1 } hmemr hids hrestnd hstr
      refine ⟨db', stats', hloop ▸ hrun, ?_, ?_, ?_, ?_, ?_⟩
      · rw [hfailed, List.filter_cons]
        simp only [hfp, if_true, List.length_cons]
        omega
      · rw [hparsed, List.filter_cons]
        simp [hfp]
      · intro q hq hnotin
        simp only [List.map_cons, List.mem_cons, not_or] at hnotin
        exact huntouched q hq hnotin.2
      · intro q hq hqf
        rcases List.mem_cons.mp hq with heq | hq'
        · subst heq
          exact huntouched q hp (by simpa using hpn)
        · exact hkeep q hq' hqf
      · intro q hq hqf
        rcases List.mem_cons.mp hq with heq | hq'
        · subst heq
          rw [hqf] at hfp
          cases hfp
        · exact hdone q hq' hqf
    · have hfp' : fails p.id = false := by
        cases h : fails p.id with
        | false => rfl
        | true => exact absurd h hfp
      obtain ⟨db1, pu, hok⟩ := hsucc db path p.id hfp'
      have hpap1 : db1.papers = db.papers := hframe db path p.id db1 pu hok
      have hupd : update_status db1 p.id "PARSED" now
          = .ok { db1 with
                  papers := db1.papers.map (fun r =>
                    if r.id == p.id then
                      { r with status := "PARSED", updated_at := now }
                    else r) } := by
        apply update_status_ok db1 p "PARSED" now
        · rw [hpap1]; exact hids
        · rw [hpap1]; exact hp
        · decide
        · rw [hpst]; decide
      set stats1 := if (pu == "docling") = true then
          { stats with docling := stats.docling + 1 }
        else { stats with minicpm := stats.minicpm + 1 } with hstats1
      have hs1f : stats1.failed = stats.failed := by
        rw [hstats1]
        by_cases h : (pu == "docling") = true <;> simp [h]
      have hs1p : stats1.parsed = stats.parsed := by
        rw [hstats1]
        by_cases h : (pu == "docling") = true <;> simp [h]
      set db2 : ReviewDatabase :=
        { db1 with
          papers := db1.papers.map (fun r =>
            if r.id == p.id then
              { r with status := "PARSED", updated_at := now }
            else r) } with hdb2
      have hloop : parse_all_pdfs_loop find_pdf attempt now (p :: rest) db stats
          = parse_all_pdfs_loop find_pdf attempt now rest db2
              { stats1 with parsed := stats1.parsed + 1 } := by
        conv_lhs => rw [parse_all_pdfs_loop]
        rw [hpath]
        dsimp only
        rw [hok]
        dsimp only
        rw [hupd]
      have hids2 : (db2.papers.map (fun r => r.id)).Nodup := by
        have hmapids := statusMap_ids db1.papers p.id "PARSED" now
        rw [hdb2]
        dsimp only
        rw [hmapids, hpap1]
        exact hids
      have hmem2 : ∀ q ∈ rest, q ∈ db2.papers := by
        intro q hq
        have hqid : q.id ≠ p.id := by
          intro hcon
          exact hpn (hcon ▸ List.mem_map.mpr ⟨q, hq, rfl⟩)
        exact statusMap_mem_of_ne db1.papers p.id "PARSED" now q
          (hpap1 ▸ hmemr q hq) hqid
      obtain ⟨db', stats', hrun, hfailed, hparsed, huntouched, hkeep, hdone⟩ :=
        ih db2 { stats1 with parsed := stats1.parsed + 1 } hmem2 hids2 hrestnd
          hstr
      refine ⟨db', stats', hloop ▸ hrun, ?_, ?_, ?_, ?_, ?_⟩
      · rw [hfailed, List.filter_cons]
        simp only [hfp', Bool.false_eq_true, if_false]
        rw [hs1f]
      · rw [hparsed, List.filter_cons]
        simp only [hfp', Bool.not_false, if_true, List.length_cons]
        rw [hs1p]
        omega
      · intro q hq hnotin
        simp only [List.map_cons, List.mem_cons, not_or] at hnotin
        have hq2 : q ∈ db2.papers :=
          statusMap_mem_of_ne db1.papers p.id "PARSED" now q (hpap1 ▸ hq)
            hnotin.1
        exact huntouched q hq2 hnotin.2
      · intro q hq hqf
        rcases List.mem_cons.mp hq with heq | hq'
        · subst heq
          rw [hqf] at hfp'
          cases hfp'
        · exact hkeep q hq' hqf
      · intro q hq hqf
        rcases List.mem_cons.mp hq with heq | hq'
        · subst heq
          have hq2 :
              ({ q with status := "PARSED", updated_at := now } : Paper)
                ∈ db2.papers := by
            rw [hdb2]
            exact List.mem_map.mpr ⟨q, hpap1 ▸ hp, by simp⟩
          exact ⟨_, huntouched _ hq2 (by simpa using hpn), rfl, rfl⟩
        · exact hdone q hq' hqf


/-- Extraction rows appended for a different paper do not change the
staleness guard of another paper. -/
theorem skip_check_append_other (rows new : List ExtractionRow)
    (pid qid : Nat) (h : String) (hnew : ∀ r ∈ new, r.paper_id = pid)
    (hne : qid ≠ pid) :
    (rows ++ new).any (fun e =>
        e.paper_id == qid && e.extraction_schema_hash == h)
      = rows.any (fun e =>
        e.paper_id == qid && e.extraction_schema_hash == h) := by
  rw [List.any_append]
  have hzero : new.any (fun e =>
      e.paper_id == qid && e.extraction_schema_hash == h) = false := by
    rw [List.any_eq_false]
    intro r hr
    simp [hnew r hr, Ne.symm hne]
  rw [hzero, Bool.or_false]

/-- Behaviour of the `run_extraction` loop: parsed text is found for every
paper, the extraction attempt fails exactly on the papers of `fails`, and
a successful attempt only appends extraction rows of its own paper.
Already-current papers are skipped, failures are tallied and skipped over,
and every remaining paper of the snapshot reaches `EXTRACTED`. -/
theorem run_extraction_loop_spec
    (load_text : Nat → Option String)
    (extract1 : ReviewDatabase → Paper → String → Except String (ReviewDatabase × Nat))
    (fails : Nat → Bool) (schema_hash now : String)
    (hload : ∀ pid, load_text pid ≠ none)
    (hfail : ∀ st p text, fails p.id = true → ∃ e, extract1 st p text = .error e)
    (hsucc : ∀ st p text, fails p.id = false →
      ∃ db1 n, extract1 st p text = .ok (db1, n))
    (hframe : ∀ st p text db1 n, extract1 st p text = .ok (db1, n) →
      db1.papers = st.papers ∧
      ∃ new, db1.extractions = st.extractions ++ new ∧
        ∀ r ∈ new, r.paper_id = p.id) :
    ∀ (todo : List Paper) (db : ReviewDatabase) (stats : ExtractStats),
    (∀ p ∈ todo, p ∈ db.papers) →
    ((db.papers.map (fun r => r.id)).Nodup) →
    ((todo.map (fun r => r.id)).Nodup) →
    (∀ p ∈ todo, p.status = "PARSED") →
    ∃ db' stats',
      run_extraction_loop load_text extract1 schema_hash now todo db stats
        = (db', stats') ∧
      stats'.skipped = stats.skipped +
        (todo.filter (fun p =>
          extraction_skip_check db p.id schema_hash)).length ∧
      stats'.failed = stats.failed +
        (todo.filter (fun p =>
          !extraction_skip_check db p.id schema_hash && fails p.id)).length ∧
      stats'.extracted = stats.extracted +
        (todo.filter (fun p =>
          !extraction_skip_check db p.id schema_hash && !fails p.id)).length ∧
      (∀ q ∈ db.papers, q.id ∉ todo.map (fun r => r.id) → q ∈ db'.papers) ∧
      (∀ p ∈ todo,
        extraction_skip_check db p.id schema_hash = true ∨ fails p.id = true →
        p ∈ db'.papers) ∧
      (∀ p ∈ todo, extraction_skip_check db p.id schema_hash = false →
        fails p.id = false →
        ∃ q ∈ db'.papers, q.id = p.id ∧ q.status = "EXTRACTED") := by
  intro todo
  induction todo with
  | nil =>
    intro db stats _ _ _ _
    exact ⟨db, stats, rfl, by simp, by simp, by simp, fun q hq _ => hq,
      by simp, by simp⟩
  | cons p rest ih =>
    intro db stats hmem hids htodo hst
    simp only [List.map_cons, List.nodup_cons] at htodo
    obtain ⟨hpn, hrestnd⟩ := htodo
    have hp : p ∈ db.papers := hmem p (List.mem_cons_self p rest)
    have hpst : p.status = "PARSED" := hst p (List.mem_cons_self p rest)
    have hmemr : ∀ q ∈ rest, q ∈ db.papers :=
      fun q hq => hmem q (List.mem_cons_of_mem p hq)
    have hstr : ∀ q ∈ rest, q.status = "PARSED" :=
      fun q hq => hst q (List.mem_cons_of_mem p hq)
    by_cases hsk : extraction_skip_check db p.id schema_hash = true
    · have hloop : run_extraction_loop load_text extract1 schema_hash now
          (p :: rest) db stats
          = run_extraction_loop load_text extract1 schema_hash now rest db
              { stats with skipped := stats.skipped + 1 } := by
        conv_lhs => rw [run_extraction_loop]
        rw [hsk, if_pos rfl]
      obtain ⟨db', stats', hrun, hskipped, hfailed, hextr, huntouched, hkeep,
          hdone⟩ := ih db { stats with skipped := stats.skipped + 1 } hmemr
          hids hrestnd hstr
      refine ⟨db', stats', hloop ▸ hrun, ?_, ?_, ?_, ?_, ?_, ?_⟩
      · rw [hskipped, List.filter_cons]
        simp only [hsk, if_true, List.length_cons]
        omega
      · rw [hfailed, List.filter_cons]
        simp [hsk]
      · rw [hextr, List.filter_cons]
        simp [hsk]
      · intro q hq hnotin
        simp only [List.map_cons, List.mem_cons, not_or] at hnotin
        exact huntouched q hq hnotin.2
      · intro q hq _
        rcases List.mem_cons.mp hq with heq | hq'
        · subst heq
          exact huntouched q hp (by simpa using hpn)
        · rcases List.mem_cons.mp hq with _ | _
          all_goals exact hkeep q hq' (by assumption)
      · intro q hq hqsk hqf
        rcases List.mem_cons.mp hq with heq | hq'
        · subst heq
          rw [hqsk] at hsk
          cases hsk
        · exact hdone q hq' hqsk hqf
    · have hsk' : extraction_skip_check db p.id schema_hash = false := by
        cases h : extraction_skip_check db p.id schema_hash with
        | false => rfl
        | true => exact absurd h hsk
      obtain ⟨text, htext⟩ : ∃ text, load_text p.id = some text := by
        cases h : load_text p.id with
        | none => exact absurd h (hload p.id)
        | some text => exact ⟨text, rfl⟩
      by_cases hfp : fails p.id = true
      · obtain ⟨e, he⟩ := hfail db p text hfp
        have hloop : run_extraction_loop load_text extract1 schema_hash now
            (p :: rest) db stats
            = run_extraction_loop load_text extract1 schema_hash now rest db
                { stats with failed := stats.failed + 1 } := by
          conv_lhs => rw [run_extraction_loop]
          rw [hsk']
          simp only [Bool.false_eq_true, if_false]
          rw [htext]
          dsimp only
          rw [he]
        obtain ⟨db', stats', hrun, hskipped, hfailed, hextr, huntouched,
            hkeep, hdone⟩ := ih db { stats with failed := stats.failed + 1 }
            hmemr hids hrestnd hstr
        refine ⟨db', stats', hloop ▸ hrun, ?_, ?_, ?_, ?_, ?_, ?_⟩
        · rw [hskipped, List.filter_cons]
          simp [hsk']
        · rw [hfailed, List.filter_cons]
          simp only [hsk', hfp, Bool.not_false, Bool.and_true, if_true,
            List.length_cons]
          omega
        · rw [hextr, List.filter_cons]
          simp [hsk', hfp]
        · intro q hq hnotin
          simp only [List.map_cons, List.mem_cons, not_or] at hnotin
          exact huntouched q hq hnotin.2
        · intro q hq _
          rcases List.mem_cons.mp hq with heq | hq'
          · subst heq
            exact huntouched q hp (by simpa using hpn)
          · exact hkeep q hq' (by assumption)
        · intro q hq hqsk hqf
          rcases List.mem_cons.mp hq with heq | hq'
          · subst heq
            rw [hqf] at hfp
            cases hfp
          · exact hdone q hq' hqsk hqf
      · have hfp' : fails p.id = false := by
          cases h : fails p.id with
          | false => rfl
          | true => exact absurd h hfp
        obtain ⟨db1, nsp, hok⟩ := hsucc db p text hfp'
        obtain ⟨hpap1, newrows, hext1, hnewpid⟩ := hframe db p text db1 nsp hok
        have hupd : update_status db1 p.id "EXTRACTED" now
            = .ok { db1 with
                    papers := db1.papers.map (fun r =>
                      if r.id == p.id then
                        { r with status := "EXTRACTED", updated_at := now }
                      else r) } := by
          apply update_status_ok db1 p "EXTRACTED" now
          · rw [hpap1]; exact hids
          · rw [hpap1]; exact hp
          · decide
          · rw [hpst]; decide
        set db2 : ReviewDatabase :=
          { db1 with
            papers := db1.papers.map (fun r =>
              if r.id == p.id then
                { r with status := "EXTRACTED", updated_at := now }
              else r) } with hdb2
        have hloop : run_extraction_loop load_text extract1 schema_hash now
            (p :: rest) db stats
            = run_extraction_loop load_text extract1 schema_hash now rest db2
                { stats with extracted := stats.extracted + 1,
                             total_spans := stats.total_spans + nsp } := by
          conv_lhs => rw [run_extraction_loop]
          rw [hsk']
          simp only [Bool.false_eq_true, if_false]
          rw [htext]
          dsimp only
          rw [hok]
          dsimp only
          rw [hupd]
        have hids2 : (db2.papers.map (fun r => r.id)).Nodup := by
          have hmapids := statusMap_ids db1.papers p.id "EXTRACTED" now
          rw [hdb2]
          dsimp only
          rw [hmapids, hpap1]
          exact hids
        have hmem2 : ∀ q ∈ rest, q ∈ db2.papers := by
          intro q hq
          have hqid : q.id ≠ p.id := by
            intro hcon
            exact hpn (hcon ▸ List.mem_map.mpr ⟨q, hq, rfl⟩)
          exact statusMap_mem_of_ne db1.papers p.id "EXTRACTED" now q
            (hpap1 ▸ hmemr q hq) hqid
        have hext2 : db2.extractions = db.extractions ++ newrows := by
          rw [hdb2]
          exact hext1
        have hskip2 : ∀ q ∈ rest,
            extraction_skip_check db2 q.id schema_hash
              = extraction_skip_check db q.id schema_hash := by
          intro q hq
          have hqid : q.id ≠ p.id := by
            intro hcon
            exact hpn (hcon ▸ List.mem_map.mpr ⟨q, hq, rfl⟩)
          unfold extraction_skip_check
          rw [hext2]
          exact skip_check_append_other db.extractions newrows p.id q.id
            schema_hash hnewpid hqid
        obtain ⟨db', stats', hrun, hskipped, hfailed, hextr, huntouched,
            hkeep, hdone⟩ := ih db2
            { stats with extracted := stats.extracted + 1,
                         total_spans := stats.total_spans + nsp }
            hmem2 hids2 hrestnd hstr
        have hfc1 : rest.filter (fun q =>
              extraction_skip_check db2 q.id schema_hash)
            = rest.filter (fun q =>
              extraction_skip_check db q.id schema_hash) :=
          List.filter_congr (fun q hq => hskip2 q hq)
        have hfc2 : rest.filter (fun q =>
              !extraction_skip_check db2 q.id schema_hash && fails q.id)
            = rest.filter (fun q =>
              !extraction_skip_check db q.id schema_hash && fails q.id) :=
          List.filter_congr (fun q hq => by rw [hskip2 q hq])
        have hfc3 : rest.filter (fun q =>
              !extraction_skip_check db2 q.id schema_hash && !fails q.id)
            = rest.filter (fun q =>
              !extraction_skip_check db q.id schema_hash && !fails q.id) :=
          List.filter_congr (fun q hq => by rw [hskip2 q hq])
        refine ⟨db', stats', hloop ▸ hrun, ?_, ?_, ?_, ?_, ?_, ?_⟩
        · rw [hskipped, hfc1, List.filter_cons]
          simp [hsk']
        · rw [hfailed, hfc2, List.filter_cons]
          simp [hsk', hfp']
        · rw [hextr, hfc3, List.filter_cons]
          simp only [hsk', hfp', Bool.not_false, Bool.and_true, if_true,
            List.length_cons]
          omega
        · intro q hq hnotin
          simp only [List.map_cons, List.mem_cons, not_or] at hnotin
          have hq2 : q ∈ db2.papers :=
            statusMap_mem_of_ne db1.papers p.id "EXTRACTED" now q
              (hpap1 ▸ hq) hnotin.1
          exact huntouched q hq2 hnotin.2
        · intro q hq hcase
          rcases List.mem_cons.mp hq with heq | hq'
          · subst heq
            rcases hcase with h | h
            · rw [h] at hsk'
              cases hsk'
            · rw [h] at hfp'
              cases hfp'
          · refine hkeep q hq' ?_
            rcases hcase with h | h
            · exact Or.inl ((hskip2 q hq').trans h)
            · exact Or.inr h
        · intro q hq hqsk hqf
          rcases List.mem_cons.mp hq with heq | hq'
          · subst heq
            have hq2 :
                ({ q with status := "EXTRACTED", updated_at := now } : Paper)
                  ∈ db2.papers := by
              rw [hdb2]
              exact List.mem_map.mpr ⟨q, hpap1 ▸ hp, by simp⟩
            exact ⟨_, huntouched _ hq2 (by simpa using hpn), rfl, rfl⟩
          · exact hdone q hq' ((hskip2 q hq').trans hqsk) hqf


/-- Counterexample to C6 as stated: `run_screening` has no `try/except`
around its per-paper body, so one raised model-call exception on the sample
store's single `INGESTED` paper propagates out of the runner and aborts
the batch instead of being caught and tallied. -/
theorem run_screening_uncaught_model_error :
    run_screening sampleFailOracle sampleDb "t1"
      = .error (.modelError "model call failed", sampleDb) := rfl

/-- **C6 (amended).** For the parsing and extraction runners, a
collaborator exception for one paper is caught by the runner: it is
counted in the stage's failure tally, the failing paper's row — its status
included — is unchanged, and the runner continues processing the remaining
papers (every non-failing paper still reaches `PARSED`/`EXTRACTED`).  The
screening runner does not catch: a model-call exception on the first
snapshot paper propagates and aborts the whole batch, leaving the store as
already committed. -/
theorem stage_runner_failure_isolation :
    (∀ (find_pdf : Nat → Option String)
       (attempt : ReviewDatabase → String → Nat →
         Except String (ReviewDatabase × String))
       (fails : Nat → Bool) (db : ReviewDatabase) (now : String),
      (∀ pid, find_pdf pid ≠ none) →
      (∀ st path pid, fails pid = true →
        ∃ e, attempt st path pid = .error e) →
      (∀ st path pid, fails pid = false →
        ∃ db1 pu, attempt st path pid = .ok (db1, pu)) →
      (∀ st path pid db1 pu, attempt st path pid = .ok (db1, pu) →
        db1.papers = st.papers) →
      ((db.papers.map (fun r => r.id)).Nodup) →
      ∃ db' stats',
        parse_all_pdfs find_pdf attempt db now = (db', stats') ∧
        stats'.failed = ((get_papers_by_status db "PDF_ACQUIRED").filter
          (fun p => fails p.id)).length ∧
        stats'.parsed = ((get_papers_by_status db "PDF_ACQUIRED").filter
          (fun p => !fails p.id)).length ∧
        (∀ p ∈ get_papers_by_status db "PDF_ACQUIRED", fails p.id = true →
          p ∈ db'.papers) ∧
        (∀ p ∈ get_papers_by_status db "PDF_ACQUIRED", fails p.id = false →
          ∃ q ∈ db'.papers, q.id = p.id ∧ q.status = "PARSED")) ∧
    (∀ (load_text : Nat → Option String)
       (extract1 : ReviewDatabase → Paper → String →
         Except String (ReviewDatabase × Nat))
       (fails : Nat → Bool) (schema_hash : String) (db : ReviewDatabase)
       (now : String),
      (∀ pid, load_text pid ≠ none) →
      (∀ st p text, fails p.id = true → ∃ e, extract1 st p text = .error e) →
      (∀ st p text, fails p.id = false →
        ∃ db1 n, extract1 st p text = .ok (db1, n)) →
      (∀ st p text db1 n, extract1 st p text = .ok (db1, n) →
        db1.papers = st.papers ∧
        ∃ new, db1.extractions = st.extractions ++ new ∧
          ∀ r ∈ new, r.paper_id = p.id) →
      ((db.papers.map (fun r => r.id)).Nodup) →
      ∃ db' stats',
        run_extraction load_text extract1 schema_hash db now
          = (db', stats') ∧
        stats'.failed = ((get_papers_by_status db "PARSED").filter
          (fun p => !extraction_skip_check db p.id schema_hash &&
            fails p.id)).length ∧
        stats'.extracted = ((get_papers_by_status db "PARSED").filter
          (fun p => !extraction_skip_check db p.id schema_hash &&
            !fails p.id)).length ∧
        (∀ p ∈ get_papers_by_status db "PARSED",
          extraction_skip_check db p.id schema_hash = true ∨
            fails p.id = true →
          p ∈ db'.papers) ∧
        (∀ p ∈ get_papers_by_status db "PARSED",
          extraction_skip_check db p.id schema_hash = false →
          fails p.id = false →
          ∃ q ∈ db'.papers, q.id = p.id ∧ q.status = "EXTRACTED")) ∧
    (∀ (oracle : Paper → Nat → Except String ScreeningDecisionOut)
       (db : ReviewDatabase) (now : String) (p : Paper) (rest : List Paper)
       (e : String),
      get_papers_by_status db "INGESTED" = p :: rest →
      oracle p 1 = .error e →
      run_screening oracle db now = .error (.modelError e, db)) := by
  refine ⟨?_, ?_, ?_⟩
  · intro find_pdf attempt fails db now hfind hfailh hsucch hframeh hids
    obtain ⟨hmem, hsts, hnd⟩ :=
      get_papers_by_status_facts db "PDF_ACQUIRED" hids
    obtain ⟨db', stats', hrun, hfailed, hparsed, _, hkeep, hdone⟩ :=
      parse_all_pdfs_loop_spec find_pdf attempt fails now hfind hfailh hsucch
        hframeh (get_papers_by_status db "PDF_ACQUIRED") db
        (ParseStats.mk 0 0 0 0 0) hmem hids hnd hsts
    refine ⟨db', stats', hrun, ?_, ?_, hkeep, hdone⟩
    · simpa using hfailed
    · simpa using hparsed
  · intro load_text extract1 fails schema_hash db now hload hfailh hsucch
      hframeh hids
    obtain ⟨hmem, hsts, hnd⟩ := get_papers_by_status_facts db "PARSED" hids
    obtain ⟨db', stats', hrun, _, hfailed, hextr, _, hkeep, hdone⟩ :=
      run_extraction_loop_spec load_text extract1 fails schema_hash now hload
        hfailh hsucch hframeh (get_papers_by_status db "PARSED") db
        (ExtractStats.mk 0 0 0 0) hmem hids hnd hsts
    refine ⟨db', stats', hrun, ?_, ?_, hkeep, hdone⟩
    · simpa using hfailed
    · simpa using hextr
  · intro oracle db now p rest e hsnap he
    unfold run_screening
    rw [hsnap]
    conv_lhs => rw [run_screening_loop]
    rw [he]

/-- Witness for the amended C6 at concrete inputs: with paper 1 failing
and paper 2 succeeding, the parse and extraction runners tally one
failure, keep paper 1's row (status included) unchanged, and still move
paper 2 to `PARSED`/`EXTRACTED`; the screening runner on the sample store
propagates the model-call exception. -/
theorem stage_runner_failure_isolation_witness :
    (∃ db' stats',
      parse_all_pdfs sampleFindPdf sampleParseAttempt sampleParseDb "t2"
        = (db', stats') ∧
      stats'.failed = 1 ∧ stats'.parsed = 1 ∧
      ({ samplePaper with status := "PDF_ACQUIRED" } : Paper) ∈ db'.papers ∧
      (∃ q ∈ db'.papers, q.id = samplePaper2.id ∧ q.status = "PARSED")) ∧
    (∃ db' stats',
      run_extraction sampleLoadText sampleExtract1 "h9" sampleExtractDb "t2"
        = (db', stats') ∧
      stats'.failed = 1 ∧ stats'.extracted = 1 ∧
      ({ samplePaper with status := "PARSED" } : Paper) ∈ db'.papers ∧
      (∃ q ∈ db'.papers, q.id = samplePaper2.id ∧ q.status = "EXTRACTED")) ∧
    (run_screening sampleFailOracle sampleDb "t3"
      = .error (.modelError "model call failed", sampleDb)) := by
  obtain ⟨ha, hb, hc⟩ := stage_runner_failure_isolation
  refine ⟨?_, ?_, ?_⟩
  · have h1 : ∀ pid, sampleFindPdf pid ≠ none := by
      intro pid h
      simp [sampleFindPdf] at h
    have h2 : ∀ st path pid, sampleParseFails pid = true →
        ∃ e, sampleParseAttempt st path pid = .error e := by
      intro st path pid h
      simp only [sampleParseFails] at h
      exact ⟨"parse failed", by simp [sampleParseAttempt, h]⟩
    have h3 : ∀ st path pid, sampleParseFails pid = false →
        ∃ db1 pu, sampleParseAttempt st path pid = .ok (db1, pu) := by
      intro st path pid h
      simp only [sampleParseFails] at h
      exact ⟨st, "docling", by simp [sampleParseAttempt, h]⟩
    have h4 : ∀ st path pid db1 pu,
        sampleParseAttempt st path pid = .ok (db1, pu) →
        db1.papers = st.papers := by
      intro st path pid db1 pu h
      unfold sampleParseAttempt at h
      by_cases hcnd : (pid == 1) = true
      · rw [if_pos hcnd] at h
        cases h
      · rw [if_neg hcnd] at h
        injection h with h'
        injection h' with h1' h2'
        rw [← h1']
    obtain ⟨db', stats', hrun, hfailed, hparsed, hkeep, hdone⟩ :=
      ha sampleFindPdf sampleParseAttempt sampleParseFails sampleParseDb "t2"
        h1 h2 h3 h4 (by decide)
    refine ⟨db', stats', hrun, ?_, ?_, ?_, ?_⟩
    · rw [hfailed]
      decide
    · rw [hparsed]
      decide
    · exact hkeep { samplePaper with status := "PDF_ACQUIRED" } (by decide)
        (by decide)
    · exact hdone { samplePaper2 with status := "PDF_ACQUIRED" } (by decide)
        (by decide)
  · have h1 : ∀ pid, sampleLoadText pid ≠ none := by
      intro pid h
      simp [sampleLoadText] at h
    have h2 : ∀ st (p : Paper) text, sampleParseFails p.id = true →
        ∃ e, sampleExtract1 st p text = .error e := by
      intro st p text h
      simp only [sampleParseFails] at h
      exact ⟨"model call failed", by simp [sampleExtract1, h]⟩
    have h3 : ∀ st (p : Paper) text, sampleParseFails p.id = false →
        ∃ db1 n, sampleExtract1 st p text = .ok (db1, n) := by
      intro st p text h
      simp only [sampleParseFails] at h
      exact ⟨st, 3, by simp [sampleExtract1, h]⟩
    have h4 : ∀ st (p : Paper) text db1 n,
        sampleExtract1 st p text = .ok (db1, n) →
        db1.papers = st.papers ∧
        ∃ new, db1.extractions = st.extractions ++ new ∧
          ∀ r ∈ new, r.paper_id = p.id := by
      intro st p text db1 n h
      unfold sampleExtract1 at h
      by_cases hcnd : (p.id == 1) = true
      · rw [if_pos hcnd] at h
        cases h
      · rw [if_neg hcnd] at h
        injection h with h'
        injection h' with h1' h2'
        rw [← h1']
        exact ⟨rfl, [], by simp, by simp⟩
    obtain ⟨db', stats', hrun, hfailed, hextr, hkeep, hdone⟩ :=
      hb sampleLoadText sampleExtract1 sampleParseFails "h9" sampleExtractDb
        "t2" h1 h2 h3 h4 (by decide)
    refine ⟨db', stats', hrun, ?_, ?_, ?_, ?_⟩
    · rw [hfailed]
      decide
    · rw [hextr]
      decide
    · exact hkeep { samplePaper with status := "PARSED" } (by decide)
        (Or.inr (by decide))
    · exact hdone { samplePaper2 with status := "PARSED" } (by decide)
        (by decide) (by decide)
  · exact hc sampleFailOracle sampleDb "t3" samplePaper [] "model call failed"
      (by decide) rfl

end EvidenceEngine
